import Mathlib

attribute [local semireducible] Rat.add Rat.mul Rat.inv Rat.sub Rat.ofScientific

/-!
Shallow embedding of the Trade-Mirror ingestion / metrics / storage core
(`src/prod/core/processor.py`, `src/prod/core/database.py`).

Tables are modelled as rectangular lists of cells; Python floats are
modelled as rationals (every finite float is a dyadic rational, and the
claims under study never depend on binary rounding of arithmetic);
pandas `NaN` is modelled as a `null` cell.  Non-finite parse results
("inf", "nan") are modelled as null.  `pd.to_datetime` and its `dt`
accessors are abstracted as an explicit function parameter, so every
theorem below holds for an arbitrary datetime parser.
-/

/-- Python's whitespace set for `str.strip()`. -/
def isPyWs (c : Char) : Bool :=
  c = ' ' ∨ c = '\t' ∨ c = '\n' ∨ c = '\r' ∨ c = '\x0b' ∨ c = '\x0c'

def stripChars (cs : List Char) : List Char :=
  ((cs.dropWhile isPyWs).reverse.dropWhile isPyWs).reverse

/-- Python `str.strip()`. -/
def pyStrip (s : String) : String := String.mk (stripChars s.data)

/-- Python `str.lower()` (ASCII). -/
def pyLower (s : String) : String := String.mk (s.data.map Char.toLower)

def subListAt : List Char → List Char → Bool
  | l, pat =>
    pat.isPrefixOf l ||
      match l with
      | [] => false
      | _ :: t => subListAt t pat

/-- Python `str.title()` restricted to ASCII letters: a letter that follows
a non-letter is uppercased, a letter that follows a letter is lowercased. -/
def pyTitleGo : Bool → List Char → List Char
  | _, [] => []
  | prevAlpha, c :: cs =>
    (if c.isAlpha then (if prevAlpha then c.toLower else c.toUpper) else c) ::
      pyTitleGo c.isAlpha cs

def pyTitle (s : String) : String := String.mk (pyTitleGo false s.data)

/-- Digit string to natural number. -/
def digitsToNat (cs : List Char) : Nat :=
  cs.foldl (fun acc c => 10 * acc + (c.toNat - '0'.toNat)) 0

/-- Parse an optional exponent suffix `e`/`E` sign digits; returns the
exponent and requires the remainder to be empty. -/
def parseExpPart (cs : List Char) : Option Int :=
  match cs with
  | [] => some 0
  | e :: rest =>
    if e = 'e' ∨ e = 'E' then
      let (neg, rest') :=
        match rest with
        | '+' :: t => (false, t)
        | '-' :: t => (true, t)
        | t => (false, t)
      let ds := rest'.takeWhile Char.isDigit
      let tail := rest'.dropWhile Char.isDigit
      if ds.isEmpty ∨ ¬ tail.isEmpty then none
      else some (if neg then -(digitsToNat ds : Int) else (digitsToNat ds : Int))
    else none

/-- Model of Python `float(...)` / `pandas.to_numeric` on a single string:
optional sign, digits with an optional decimal point, optional exponent.
Non-finite spellings ("nan", "inf", ...) and unparseable strings give
`none` (NaN and IEEE infinities are both modelled as null). -/
def parseFloat? (s : String) : Option ℚ :=
  let cs := stripChars s.data
  let (neg, cs) :=
    match cs with
    | '+' :: t => (false, t)
    | '-' :: t => (true, t)
    | t => (false, t)
  let intPart := cs.takeWhile Char.isDigit
  let rest := cs.dropWhile Char.isDigit
  let (fracPart, rest) :=
    match rest with
    | '.' :: t => (t.takeWhile Char.isDigit, t.dropWhile Char.isDigit)
    | t => ([], t)
  if intPart.isEmpty ∧ fracPart.isEmpty then none
  else
    match parseExpPart rest with
    | none => none
    | some e =>
      let mantissa : ℚ := (digitsToNat (intPart ++ fracPart) : ℚ) / (10 : ℚ) ^ fracPart.length
      let v := mantissa * (10 : ℚ) ^ e
      some (if neg then -v else v)

/-- Multiplicity of `p` in `n` (fuel-bounded). -/
def facCount (p : Nat) : Nat → Nat → Nat
  | 0, _ => 0
  | fuel + 1, n => if 2 ≤ p ∧ n % p = 0 ∧ n ≠ 0 then facCount p fuel (n / p) + 1 else 0

/-- Decimal string for an integer scaled by `10^k` (the digit string of
`n` with a decimal point `k` places from the right, at least one digit on
each side, Python style). -/
def decimalString (n : Int) (k : Nat) : String :=
  let sign := if n < 0 then "-" else ""
  let ds := (toString n.natAbs).data
  if k = 0 then sign ++ String.mk ds ++ ".0"
  else
    let ds := if ds.length ≤ k then List.replicate (k + 1 - ds.length) '0' ++ ds else ds
    sign ++ String.mk (ds.take (ds.length - k)) ++ "." ++ String.mk (ds.drop (ds.length - k))

/-- Model of Python `str()` on a float value: finite decimal expansion
(every actual float has one, its denominator being a power of two);
rationals outside that range (artifacts of the model) fall back to the
raw rational literal, which no numeric parser accepts. -/
def floatRepr (q : ℚ) : String :=
  let d := q.den
  let k := max (facCount 2 64 d) (facCount 5 64 d)
  if d ∣ 10 ^ k then decimalString (q.num * (10 ^ k / (d : Int))) k
  else toString q

/-- Python `round(q, 2)`: the model rounds half away from the even-digit
subtleties of binary floats; no claim exercises an exact half. -/
def round2 (q : ℚ) : ℚ := (round (100 * q) : ℤ) / 100

/-- Python `int(...)` truncation toward zero. -/
def pyInt (q : ℚ) : ℤ := if q < 0 then -((-q).floor) else q.floor

/-- Substring test (`pat in s` in Python). -/
def strContainsSub (s pat : String) : Bool := subListAt s.data pat.data

/-- `os.path.basename`: everything after the last path separator. -/
def pyBasename (p : String) : String :=
  String.mk ((p.data.reverse.takeWhile (· ≠ '/')).reverse)

/-- Number of leading dots of a character list. -/
def leadingDots (cs : List Char) : Nat := (cs.takeWhile (· = '.')).length

/-- Index of the last `'.'` at position ≥ `lo`, if any. -/
def lastDotFrom (cs : List Char) (lo : Nat) : Option Nat :=
  (List.range cs.length).foldl
    (fun acc i => if lo ≤ i ∧ cs.getD i ' ' = '.' then some i else acc) none

/-- `os.path.splitext(...)[1]`: the extension of the basename, where the
leading dots of a dotfile do not start an extension. -/
def pySplitextExt (p : String) : String :=
  let b := (pyBasename p).data
  match lastDotFrom b (leadingDots b) with
  | some i => String.mk (b.drop i)
  | none => ""

/-- A table cell: Python strings, ints, floats, bools, and NaN/None. -/
inductive Cell where
  | str (s : String)
  | int (z : ℤ)
  | num (q : ℚ)
  | bool (b : Bool)
  | null
deriving DecidableEq, Repr

/-- Python `str()` of a cell value (`str(float('nan')) = "nan"`). -/
def cellStr : Cell → String
  | .str s => s
  | .int z => toString z
  | .num q => floatRepr q
  | .bool b => if b then "True" else "False"
  | .null => "nan"

/-- Numeric view of a cell, as used by pandas comparisons, sums and
`pd.to_numeric` on mixed values: NaN is `none`; strings are parsed. -/
def cellNum : Cell → Option ℚ
  | .str s => parseFloat? s
  | .int z => some z
  | .num q => some q
  | .bool b => some (if b then 1 else 0)
  | .null => none

/-- Python truthiness of a cell value (`bool(float('nan'))` is `True`). -/
def cellTruthy : Cell → Bool
  | .str s => s ≠ ""
  | .int z => z ≠ 0
  | .num q => q ≠ 0
  | .bool b => b
  | .null => true

/-- An in-memory table: column labels and rows of cells (pandas frames
are rectangular; ragged rows, unrepresentable in pandas, are read with a
null default). Duplicate labels resolve to their first occurrence. -/
structure DataFrame where
  cols : List String
  rows : List (List Cell)
deriving DecidableEq, Repr

def colIdx? (df : DataFrame) (n : String) : Option Nat :=
  df.cols.findIdx? (· == n)

def getCol? (df : DataFrame) (n : String) : Option (List Cell) :=
  (colIdx? df n).map fun i => df.rows.map (fun r => r.getD i .null)

/-- Pad / truncate a row to exactly `n` cells (identity on rectangular
frames). -/
def fitRow (n : Nat) (r : List Cell) : List Cell :=
  r.take n ++ List.replicate (n - r.length) .null

/-- `df[n] = vals`: replace the column if the label exists, else append
it. -/
def setCol (df : DataFrame) (n : String) (vals : List Cell) : DataFrame :=
  match colIdx? df n with
  | some i =>
    { cols := df.cols
      rows := (df.rows.zip vals).map fun p => (fitRow df.cols.length p.1).set i p.2 }
  | none =>
    { cols := df.cols ++ [n]
      rows := (df.rows.zip vals).map fun p => fitRow df.cols.length p.1 ++ [p.2] }

def applyMask {α : Type} : List Bool → List α → List α
  | b :: bs, x :: xs => if b then x :: applyMask bs xs else applyMask bs xs
  | _, _ => []

/-- `df.drop(columns=...)`: drop every column whose label is listed. -/
def dropColsBy (df : DataFrame) (names : List String) : DataFrame :=
  let keep := df.cols.map fun c => decide (c ∉ names)
  { cols := applyMask keep df.cols
    rows := df.rows.map fun r => applyMask keep (fitRow df.cols.length r) }

/-- Errors raised by the pipeline (`DataSecurityError`,
`DataValidationError`, and the `IndexError` pandas raises when `iloc[0]`
is taken on an empty frame). -/
inductive PErr where
  | security (msg : String)
  | validation (msg : String)
  | indexError
deriving DecidableEq, Repr

def supported_extensions : List String := [".csv", ".xlsx", ".xls"]

def required_columns : List String :=
  ["Symbol", "Quantity", "Buy Value", "Sell Value", "Realized P&L"]

def header_indicators : List String :=
  ["Symbol", "Instrument", "Tradingsymbol", "Quantity", "Buy Value", "Realized P&L"]

/-- One row of `detect_header_row`'s indicator scan: some non-null cell
whose stripped string form is exactly one of the indicator tokens. -/
def rowHasIndicator (row : List Cell) : Bool :=
  row.any fun c => (c ≠ .null) && header_indicators.contains (pyStrip (cellStr c))

/-- One row of the fallback scan: at least 70% of the cells parse as
numbers under `pd.to_numeric(..., errors='coerce')`. -/
def rowNumericDense (row : List Cell) : Bool :=
  decide (row.length ≠ 0) &&
    decide (7 * row.length ≤ 10 * (row.filter fun c => (cellNum c).isSome).length)

/-- `ZerodhaDataProcessor.detect_header_row`: row 0 if it holds an
indicator token, else the first later row holding one, else the first
later numerically dense row, else row 0. -/
def detect_header_row (df : DataFrame) : Nat :=
  if rowHasIndicator (df.rows.headD []) then 0
  else
    match (df.rows.drop 1).findIdx? rowHasIndicator with
    | some i => i + 1
    | none =>
      match (df.rows.drop 1).findIdx? rowNumericDense with
      | some i => i + 1
      | none => 0

/-- Alias table of `clean_column_names`, applied after trimming and
title-casing. -/
def aliasName (t : String) : String :=
  if t = "Tradingsymbol" then "Symbol"
  else if t = "Instrument" then "Symbol"
  else if t = "Qty" then "Quantity"
  else if t = "Buy Amount" then "Buy Value"
  else if t = "Sell Amount" then "Sell Value"
  else if t = "P&L" then "Realized P&L"
  else if t = "Profit And Loss" then "Realized P&L"
  else t

/-- Canonical form of one column label: strip, title-case, alias. -/
def canonName (c : String) : String := aliasName (pyTitle (pyStrip c))

/-- `ZerodhaDataProcessor.clean_column_names`. -/
def clean_column_names (df : DataFrame) : DataFrame :=
  { cols := df.cols.map canonName, rows := df.rows }

/-- Header application in `load_zerodha_pnl` when `header_idx > 0`:
`df.columns = df.iloc[idx]; df = df[idx+1:]`. -/
def setHeaderAt (df : DataFrame) (i : Nat) : DataFrame :=
  { cols := (df.rows.getD i []).map cellStr, rows := df.rows.drop (i + 1) }

def sensitive_columns : List String := ["Client Id", "Order Id", "Trade Id"]

/-- Text cleaning of `sanitize_data`: strip, then map the common null
spellings to NaN.  (Applied to string cells; pandas applies it to
object-typed columns.) -/
def cleanTextCell : Cell → Cell
  | .str s =>
    let t := pyStrip s
    if t = "nan" ∨ t = "None" ∨ t = "null" ∨ t = "" then .null else .str t
  | c => c

/-- `ZerodhaDataProcessor.sanitize_data`: drop the sensitive columns,
then clean text cells. -/
def sanitize_data (df : DataFrame) : DataFrame :=
  let df := dropColsBy df sensitive_columns
  { cols := df.cols, rows := df.rows.map fun r => r.map cleanTextCell }

def numeric_columns : List String := ["Quantity", "Buy Value", "Sell Value", "Realized P&L"]

/-- The string transformation of `convert_numeric_columns`:
`.str.replace(',', '')` then `('(', '-')` then `(')', '')` — all
single-character literal replacements. -/
def transformNumStr (s : String) : String :=
  String.mk (((s.data.filter (· ≠ ',')).map fun c => if c = '(' then '-' else c).filter (· ≠ ')'))

/-- One cell of `convert_numeric_columns`: `astype(str)`, the character
replacements, then `pd.to_numeric(..., errors='coerce')`. -/
def convertCell (c : Cell) : Cell :=
  match parseFloat? (transformNumStr (cellStr c)) with
  | some q => .num q
  | none => .null

/-- Loop body of `convert_numeric_columns`: convert one column if it is
present. -/
def convertColStep (d : DataFrame) (col : String) : DataFrame :=
  match getCol? d col with
  | some cells => setCol d col (cells.map convertCell)
  | none => d

/-- `ZerodhaDataProcessor.convert_numeric_columns`. -/
def convert_numeric_columns (df : DataFrame) : DataFrame :=
  numeric_columns.foldl convertColStep df

/-- `ZerodhaDataProcessor.validate_data_integrity`: reject empty frames
and missing required columns (the remaining checks only log warnings). -/
def validate_data_integrity (df : DataFrame) : Except PErr Unit :=
  if df.rows.isEmpty ∨ df.cols.isEmpty then .error (.validation "DataFrame is empty")
  else if (required_columns.filter fun c => ¬ df.cols.contains c) ≠ [] then
    .error (.validation "Missing required columns")
  else .ok ()

/-- `Win` flag cell: `Realized P&L > 0` (False on NaN). -/
def winCell (c : Cell) : Cell :=
  .bool (match cellNum c with | some q => decide (0 < q) | none => false)

/-- `Loss` flag cell: `Realized P&L < 0` (False on NaN). -/
def lossCell (c : Cell) : Cell :=
  .bool (match cellNum c with | some q => decide (q < 0) | none => false)

/-- `Break_Even` flag cell: `Realized P&L == 0` (False on NaN). -/
def breakEvenCell (c : Cell) : Cell :=
  .bool (match cellNum c with | some q => decide (q = 0) | none => false)

/-- `Return_Percentage` cell: `np.where(bv != 0, pnl / bv * 100, 0)`;
NaN compares unequal to 0, and NaN arithmetic yields NaN. -/
def returnPctCell (bv pnl : Cell) : Cell :=
  match cellNum bv with
  | none => .null
  | some b =>
    if b = 0 then .num 0
    else match cellNum pnl with
      | none => .null
      | some p => .num (p / b * 100)

/-- `Position_Size` cell: `abs(Quantity)`. -/
def positionSizeCell (c : Cell) : Cell :=
  match cellNum c with
  | some q => .num |q|
  | none => .null

/-- `Avg_Entry_Price` cell: `np.where(qty != 0, bv / qty, 0)`. -/
def avgEntryCell (qty bv : Cell) : Cell :=
  match cellNum qty with
  | none => .null
  | some q =>
    if q = 0 then .num 0
    else match cellNum bv with
      | none => .null
      | some b => .num (b / q)

/-- Win/Loss/Break_Even section of `calculate_derived_metrics`. -/
def addWinLossFlags (df : DataFrame) : DataFrame :=
  match getCol? df "Realized P&L" with
  | some pnl =>
    let df := setCol df "Win" (pnl.map winCell)
    let df := setCol df "Loss" (pnl.map lossCell)
    setCol df "Break_Even" (pnl.map breakEvenCell)
  | none => df

/-- Return-percentage section of `calculate_derived_metrics`. -/
def addReturnPct (df : DataFrame) : DataFrame :=
  match getCol? df "Buy Value", getCol? df "Realized P&L" with
  | some bv, some pnl => setCol df "Return_Percentage" (List.zipWith returnPctCell bv pnl)
  | _, _ => df

/-- Risk-metrics section of `calculate_derived_metrics`. -/
def addPositionMetrics (df : DataFrame) : DataFrame :=
  match getCol? df "Quantity" with
  | some qty =>
    let df := setCol df "Position_Size" (qty.map positionSizeCell)
    match getCol? df "Buy Value" with
    | some bv => setCol df "Avg_Entry_Price" (List.zipWith avgEntryCell qty bv)
    | none => df
  | none => df

/-- A column label naming a date/time column. -/
def isDateColName (c : String) : Bool :=
  strContainsSub (pyLower c) "date" || strContainsSub (pyLower c) "time"

/-- Abstract model of `pd.to_datetime` plus the `dt.day_name`,
`dt.month_name`, `dt.hour` accessors: `none` models a parse failure (the
`except` branch).  Length-preserving by construction of the library. -/
def DtParse : Type := List Cell → Option (List Cell × List Cell × List Cell × List Cell)

/-- Date/time section of `calculate_derived_metrics`, over an abstract
datetime parser. -/
def addDateDerived (dtParse : DtParse) (df : DataFrame) : DataFrame :=
  match df.cols.filter isDateColName with
  | [] => df
  | dc :: _ =>
    match getCol? df dc with
    | none => df
    | some cells =>
      match dtParse cells with
      | none => df
      | some (parsed, days, months, hours) =>
        if parsed.length = cells.length ∧ days.length = cells.length ∧
            months.length = cells.length ∧ hours.length = cells.length then
          let df := setCol df dc parsed
          let df := setCol df "Day_of_Week" days
          let df := setCol df "Month" months
          setCol df "Hour" hours
        else df

/-- `ZerodhaDataProcessor.calculate_derived_metrics`. -/
def calculate_derived_metrics (dtParse : DtParse) (df : DataFrame) : DataFrame :=
  addDateDerived dtParse (addPositionMetrics (addReturnPct (addWinLossFlags df)))

/-- The post-load normalization of `load_zerodha_pnl` (header handling,
column cleaning, sanitization, numeric coercion, validation, derived
metrics), acting on the already-parsed table. -/
def load_zerodha_pnl (dtParse : DtParse) (df : DataFrame) : Except PErr DataFrame :=
  if df.rows.isEmpty then .error .indexError
  else
    let hidx := detect_header_row df
    let df1 := if hidx > 0 then setHeaderAt df hidx else clean_column_names df
    let df2 := sanitize_data df1
    let df3 := convert_numeric_columns df2
    match validate_data_integrity df3 with
    | .error e => .error e
    | .ok _ => .ok (calculate_derived_metrics dtParse df3)

/-- A reported metric value: a number, the "Infinite" string sentinel,
or a float NaN. -/
inductive MetricVal where
  | num (q : ℚ)
  | infinite
  | nan
deriving DecidableEq, Repr

/-- `round(-, 2)` lifted to metric values (`round` on NaN is NaN). -/
def mvRound2 : MetricVal → MetricVal
  | .num q => .num (round2 q)
  | v => v

/-- `Series.sum()` (skipna): nulls contribute nothing; an all-null or
empty column sums to 0. -/
def nanSum (l : List (Option ℚ)) : ℚ := (l.filterMap id).sum

/-- `df[c].sum() if c in df.columns else 0`. -/
def colSumQ (df : DataFrame) (n : String) : ℚ :=
  match getCol? df n with
  | some cs => nanSum (cs.map cellNum)
  | none => 0

/-- The values of the rows selected by `df[df[c] > 0][c]`. -/
def positiveVals (l : List (Option ℚ)) : List ℚ :=
  l.filterMap fun o => o.bind fun q => if 0 < q then some q else none

/-- The values of the rows selected by `df[df[c] < 0][c]`. -/
def negativeVals (l : List (Option ℚ)) : List ℚ :=
  l.filterMap fun o => o.bind fun q => if q < 0 then some q else none

/-- `Series.cumsum()` (skipna): NaN stays NaN in place, later partial
sums skip it. -/
def cumsumGo (acc : ℚ) : List (Option ℚ) → List (Option ℚ)
  | [] => []
  | none :: t => none :: cumsumGo acc t
  | some q :: t => some (acc + q) :: cumsumGo (acc + q) t

def cumsum (l : List (Option ℚ)) : List (Option ℚ) := cumsumGo 0 l

def maxOpt : Option ℚ → Option ℚ → Option ℚ
  | none, b => b
  | a, none => a
  | some a, some b => some (max a b)

/-- `Series.expanding().max()` (skipna): running maximum of the non-null
prefix, NaN until a value appears. -/
def expandingMaxGo (best : Option ℚ) : List (Option ℚ) → List (Option ℚ)
  | [] => []
  | c :: t => maxOpt best c :: expandingMaxGo (maxOpt best c) t

def expandingMax (l : List (Option ℚ)) : List (Option ℚ) := expandingMaxGo none l

def subOpt : Option ℚ → Option ℚ → Option ℚ
  | some a, some b => some (a - b)
  | _, _ => none

/-- `Series.min()` / `Series.max()` (skipna, NaN on empty), rounded at
the reporting boundary. -/
def reportMin (l : List (Option ℚ)) : MetricVal :=
  match (l.filterMap id).min? with
  | some m => .num (round2 m)
  | none => .nan

def reportMax (l : List (Option ℚ)) : MetricVal :=
  match (l.filterMap id).max? with
  | some m => .num (round2 m)
  | none => .nan

/-- `_calculate_consecutive_trades`: the longest run of truthy cells. -/
def maxConsecutiveGo : Nat → Nat → List Cell → Nat
  | _, best, [] => best
  | cur, best, c :: t =>
    if cellTruthy c then maxConsecutiveGo (cur + 1) (max best (cur + 1)) t
    else maxConsecutiveGo 0 best t

def maxConsecutive (cells : List Cell) : Nat := maxConsecutiveGo 0 0 cells

def consecOfCol (df : DataFrame) (n : String) : Nat :=
  match getCol? df n with
  | some cs => maxConsecutive cs
  | none => 0

/-- The metrics dictionary of `calculate_comprehensive_metrics`.
`Sharpe_Ratio` (mean/stdev of Return_Percentage) involves an irrational
square root; it never raises and no claim refers to it, so the field is
not modelled. -/
structure Metrics where
  totalPnl : ℚ
  totalTrades : Nat
  winningTrades : ℤ
  losingTrades : ℤ
  breakEvenTrades : ℤ
  winRate : ℚ
  lossRate : ℚ
  averageWin : MetricVal
  averageLoss : MetricVal
  riskReward : MetricVal
  profitFactor : MetricVal
  maxDrawdown : MetricVal
  maxConsecWins : Nat
  maxConsecLosses : Nat
  bestTrade : MetricVal
  worstTrade : MetricVal
deriving DecidableEq, Repr

/-- `avg_win = df[df[pnl] > 0][pnl].mean() if winning_trades > 0 else 0`
(the mean of an empty selection is NaN). -/
def gatedMean (gate : ℚ) (vals : List ℚ) : MetricVal :=
  if 0 < gate then
    if vals.isEmpty then .nan else .num (vals.sum / vals.length)
  else .num 0

/-- `abs(avg_win / avg_loss) if avg_loss != 0 else inf`, then reported as
"Infinite" for inf and `round(-, 2)` otherwise; NaN compares unequal to
0 and propagates. -/
def riskRewardOf (avgWin avgLoss : MetricVal) : MetricVal :=
  match avgLoss with
  | .num l =>
    if l = 0 then .infinite
    else match avgWin with
      | .num w => .num (round2 |w / l|)
      | _ => .nan
  | _ => .nan

/-- `ZerodhaDataProcessor.calculate_comprehensive_metrics`. -/
def calculate_comprehensive_metrics (df : DataFrame) : Except PErr Metrics :=
  if ¬ df.cols.contains "Realized P&L" then
    .error (.validation "Missing columns for metrics calculation")
  else
    let pnl := ((getCol? df "Realized P&L").getD []).map cellNum
    let total := df.rows.length
    let winQ := colSumQ df "Win"
    let lossQ := colSumQ df "Loss"
    let breakEvenQ := colSumQ df "Break_Even"
    let pos := positiveVals pnl
    let neg := negativeVals pnl
    let avgWin := gatedMean winQ pos
    let avgLoss := gatedMean lossQ neg
    let grossProfit := pos.sum
    let grossLoss := |neg.sum|
    let cum := cumsum pnl
    let drawdown := List.zipWith subOpt cum (expandingMax cum)
    .ok
      { totalPnl := round2 (nanSum pnl)
        totalTrades := total
        winningTrades := pyInt winQ
        losingTrades := pyInt lossQ
        breakEvenTrades := pyInt breakEvenQ
        winRate := round2 (if 0 < total then winQ / total * 100 else 0)
        lossRate := round2 (if 0 < total then lossQ / total * 100 else 0)
        averageWin := mvRound2 avgWin
        averageLoss := mvRound2 avgLoss
        riskReward := riskRewardOf avgWin avgLoss
        profitFactor := if 0 < grossLoss then .num (round2 (grossProfit / grossLoss)) else .infinite
        maxDrawdown := reportMin drawdown
        maxConsecWins := consecOfCol df "Win"
        maxConsecLosses := consecOfCol df "Loss"
        bestTrade := reportMax pnl
        worstTrade := reportMin pnl }

/-- The per-row dictionary built by `SecureDatabase.store_trades`
(`float(...)` of the numeric fields, `str(...)` of the text fields;
`none` models a NaN float). -/
structure TradeData where
  symbol : String
  quantity : Option ℚ
  buyValue : Option ℚ
  sellValue : Option ℚ
  realizedPnl : Option ℚ
  buyAverage : Option ℚ
  sellAverage : Option ℚ
  tradeType : String
  exchange : String
  tradeTime : String
deriving DecidableEq, Repr

/-- Python `float(...)` on a cell value: raises (`error`) on a
non-numeric string, yields NaN (`none`) on NaN and on non-finite
spellings. -/
def pyFloatCell : Cell → Except Unit (Option ℚ)
  | .num q => .ok (some q)
  | .int z => .ok (some z)
  | .bool b => .ok (some (if b then 1 else 0))
  | .null => .ok none
  | .str s =>
    let t := pyLower (pyStrip s)
    if t = "nan" ∨ t = "+nan" ∨ t = "-nan" ∨ t = "inf" ∨ t = "+inf" ∨ t = "-inf" ∨
        t = "infinity" ∨ t = "+infinity" ∨ t = "-infinity" then .ok none
    else match parseFloat? s with
      | some q => .ok (some q)
      | none => .error ()

/-- `row.get(n, dflt)` for a labelled row. -/
def rowGet (cols : List String) (row : List Cell) (n : String) (dflt : Cell) : Cell :=
  match cols.findIdx? (· == n) with
  | some i => row.getD i .null
  | none => dflt

/-- Build the `trade_data` dict of `store_trades` from one row; `error`
models an exception from one of the `float(...)` coercions. -/
def extractTrade (cols : List String) (row : List Cell) : Except Unit TradeData := do
  let quantity ← pyFloatCell (rowGet cols row "Quantity" (.int 0))
  let buyValue ← pyFloatCell (rowGet cols row "Buy Value" (.int 0))
  let sellValue ← pyFloatCell (rowGet cols row "Sell Value" (.int 0))
  let realizedPnl ← pyFloatCell (rowGet cols row "Realized P&L" (.int 0))
  let buyAverage ← pyFloatCell (rowGet cols row "Buy Average" (.int 0))
  let sellAverage ← pyFloatCell (rowGet cols row "Sell Average" (.int 0))
  .ok
    { symbol := cellStr (rowGet cols row "Symbol" (.str ""))
      quantity, buyValue, sellValue, realizedPnl, buyAverage, sellAverage
      tradeType := cellStr (rowGet cols row "Trade Type" (.str ""))
      exchange := cellStr (rowGet cols row "Exchange" (.str ""))
      tradeTime := cellStr (rowGet cols row "Time" (.str "")) }

/-- `str(...)` of a float dict value (`str(float('nan')) = "nan"`). -/
def pyFloatStr (o : Option ℚ) : String :=
  match o with
  | some q => floatRepr q
  | none => "nan"

/-- `repr(...)` of a string dict value (quoting; escapes of embedded
quotes are immaterial here). -/
def pyStrRepr (s : String) : String := "'" ++ s ++ "'"

/-- `SecureDatabase.calculate_data_hash`: `str(...)` of the
alphabetically sorted dict (float values are never `None`, so the
`is not None` filter drops nothing), then SHA-256.  SHA-256 is modelled
as the identity on the serialized string: the code treats hash equality
as data equality. -/
def calculate_data_hash (t : TradeData) : String :=
  "\x7b'buy_average': " ++ pyFloatStr t.buyAverage ++
    ", 'buy_value': " ++ pyFloatStr t.buyValue ++
    ", 'exchange': " ++ pyStrRepr t.exchange ++
    ", 'quantity': " ++ pyFloatStr t.quantity ++
    ", 'realized_pnl': " ++ pyFloatStr t.realizedPnl ++
    ", 'sell_average': " ++ pyFloatStr t.sellAverage ++
    ", 'sell_value': " ++ pyFloatStr t.sellValue ++
    ", 'symbol': " ++ pyStrRepr t.symbol ++
    ", 'trade_time': " ++ pyStrRepr t.tradeTime ++
    ", 'trade_type': " ++ pyStrRepr t.tradeType ++ "\x7d"

/-- A persisted row of the `trades` relation (the fields the claims
depend on). -/
structure StoredTrade where
  trade : TradeData
  dataSource : String
  dataHash : String
deriving DecidableEq, Repr

/-- The persisted database state: the committed `trades` rows. -/
structure DBState where
  trades : List StoredTrade
deriving DecidableEq, Repr

/-- A sqlite connection: the committed rows it sees plus its own
uncommitted inserts (visible to its own `SELECT`s). -/
structure Conn where
  committed : List StoredTrade
  pending : List StoredTrade
deriving DecidableEq, Repr

/-- `SELECT id FROM trades WHERE data_hash = ?` — the connection sees
committed rows and its own pending inserts. -/
def Conn.hashExists (c : Conn) (h : String) : Bool :=
  (c.committed ++ c.pending).any fun s => s.dataHash == h

/-- `INSERT INTO trades ...` (uncommitted until `commit`). -/
def Conn.insertRow (c : Conn) (s : StoredTrade) : Conn :=
  { c with pending := c.pending ++ [s] }

/-- `conn.commit()`. -/
def Conn.commitAll (c : Conn) : Conn :=
  { committed := c.committed ++ c.pending, pending := [] }

/-- Closing (or abandoning) a connection without commit rolls its
pending inserts back; only the committed rows persist. -/
def Conn.persisted (c : Conn) : List StoredTrade := c.committed

/-- The per-row loop of `store_trades`: extract, hash, check-then-insert;
an exception aborts the loop before the final commit. -/
def storeTradesLoop (source : String) (cols : List String) :
    List (List Cell) → Conn → Nat → Conn × Except Unit Nat
  | [], c, cnt => (c, .ok cnt)
  | row :: rest, c, cnt =>
    match extractTrade cols row with
    | .error e => (c, .error e)
    | .ok td =>
      let h := calculate_data_hash td
      if c.hashExists h then storeTradesLoop source cols rest c cnt
      else storeTradesLoop source cols rest (c.insertRow ⟨td, source, h⟩) (cnt + 1)

/-- `SecureDatabase.store_trades`: one connection, the per-row loop, a
single `conn.commit()` after all rows; on an exception the error is
re-raised and nothing of this call persists. -/
def store_trades (df : DataFrame) (source : String) (st : DBState) :
    DBState × Except Unit Nat :=
  let conn : Conn := ⟨st.trades, []⟩
  match storeTradesLoop source df.cols df.rows conn 0 with
  | (c, .ok cnt) => (⟨c.commitAll.persisted⟩, .ok cnt)
  | (c, .error e) => (⟨c.persisted⟩, .error e)

/-- All rows of a frame extracted to trade dicts (`error` if any row
raises). -/
def extractAll (df : DataFrame) : Except Unit (List TradeData) :=
  df.rows.mapM (extractTrade df.cols)

/-- The fingerprints a store call inserts, given the fingerprints
already visible: first occurrences of hashes not yet seen. -/
def newHashes (seen : List String) : List String → List String
  | [] => []
  | h :: t => if h ∈ seen then newHashes seen t else h :: newHashes (seen ++ [h]) t

/-- A file source as `validate_file_security` distinguishes them: a path
(which may or may not exist on disk), a file-like object with a `name`
attribute, or a nameless file-like object. -/
inductive FileSource where
  | path (p : String) (onDisk : Bool) (size : Nat)
  | named (nm : String) (size : Nat)
  | nameless (size : Nat)
deriving DecidableEq, Repr

def FileSource.extOf : FileSource → String
  | .path p _ _ => pySplitextExt p
  | .named nm _ => pySplitextExt (pyBasename nm)
  | .nameless _ => ".bin"

def FileSource.sizeOf : FileSource → Nat
  | .path _ _ s => s
  | .named _ s => s
  | .nameless s => s

/-- `ZerodhaDataProcessor.validate_file_security`: missing-file check
for paths, 50 MB size limit, supported-extension check (the subsequent
SHA-256 integrity digest is informational only). -/
def validate_file_security (src : FileSource) : Except PErr Unit :=
  match src with
  | .path _ onDisk _ =>
    if ¬ onDisk then .error (.security "File not found")
    else if 50 * 1024 * 1024 < src.sizeOf then .error (.security "File too large")
    else if ¬ supported_extensions.contains (pyLower src.extOf) then
      .error (.security "Unsupported file type")
    else .ok ()
  | _ =>
    if 50 * 1024 * 1024 < src.sizeOf then .error (.security "File too large")
    else if ¬ supported_extensions.contains (pyLower src.extOf) then
      .error (.security "Unsupported file type")
    else .ok ()

/-- `load_zerodha_pnl` from a file source: security validation, then the
CSV/Excel reader (abstracted as a parameter), then the in-memory
normalization. -/
def load_zerodha_pnl_from (readTable : FileSource → Except PErr DataFrame)
    (dtParse : DtParse) (src : FileSource) : Except PErr DataFrame :=
  match validate_file_security src with
  | .error e => .error e
  | .ok _ =>
    match readTable src with
    | .error e => .error e
    | .ok df => load_zerodha_pnl dtParse df

/-! ### Frame lemmas -/

theorem fitRow_length (n : Nat) (r : List Cell) : (fitRow n r).length = n := by
  simp only [fitRow, List.length_append, List.length_take, List.length_replicate]
  omega

theorem fitRow_getD (n : Nat) (r : List Cell) (j : Nat) (hj : j < n) :
    (fitRow n r).getD j .null = r.getD j .null := by
  simp only [fitRow, List.getD_eq_getElem?_getD, List.getElem?_append, List.getElem?_take,
    List.length_take, List.getElem?_replicate]
  rcases lt_or_le j r.length with h | h
  · simp [hj, h, lt_min hj h]
  · have h1 : ¬ j < min n r.length := by omega
    simp only [hj, if_true, h1, if_false]
    rw [List.getElem?_eq_none h]
    have h2 : j - min n r.length < n - r.length := by omega
    simp [h2]

theorem findIdx?_go_spec {α : Type} (p : α → Bool) :
    ∀ (l : List α) (s j : Nat), List.findIdx? p l s = some j →
      s ≤ j ∧ j - s < l.length ∧ (∃ x, l[j - s]? = some x ∧ p x = true) ∧
        ∀ k, k < j - s → ∀ x, l[k]? = some x → p x = false := by
  intro l
  induction l with
  | nil => intro s j h; simp [List.findIdx?] at h
  | cons a t ih =>
    intro s j h
    rw [List.findIdx?_cons] at h
    by_cases hp : p a
    · simp only [hp, if_true, Option.some.injEq] at h
      subst h
      refine ⟨le_refl _, by simp, ⟨a, by simp, hp⟩, ?_⟩
      intro k hk; omega
    · simp only [hp, if_false] at h
      rcases ih (s + 1) j h with ⟨h1, h2, ⟨x, hx1, hx2⟩, h4⟩
      have hj : j - s = (j - (s + 1)) + 1 := by omega
      refine ⟨by omega, by simp; omega, ⟨x, ?_, hx2⟩, ?_⟩
      · rw [hj]; simpa using hx1
      · intro k hk y hy
        match k with
        | 0 => simp at hy; subst hy; simpa using hp
        | k' + 1 =>
          exact h4 k' (by omega) y (by simpa using hy)

theorem findIdx?_go_of_spec {α : Type} (p : α → Bool) :
    ∀ (l : List α) (s i : Nat), i < l.length → (∀ x, l[i]? = some x → p x = true) →
      (∀ j, j < i → ∀ x, l[j]? = some x → p x = false) →
      List.findIdx? p l s = some (s + i) := by
  intro l
  induction l with
  | nil => intro s i h; simp at h
  | cons a t ih =>
    intro s i hlen hi hmin
    rw [List.findIdx?_cons]
    match i with
    | 0 =>
      have := hi a (by simp)
      simp [this]
    | i' + 1 =>
      have hpa : p a = false := hmin 0 (by omega) a (by simp)
      simp only [hpa, Bool.false_eq_true, if_false]
      have := ih (s + 1) i' (by simpa using hlen) (fun x hx => hi x (by simpa using hx))
        (fun j hj x hx => hmin (j + 1) (by omega) x (by simpa using hx))
      rw [this]
      congr 1
      omega

theorem findIdx?_spec {α : Type} (p : α → Bool) (l : List α) (j : Nat)
    (h : List.findIdx? p l = some j) :
    j < l.length ∧ (∃ x, l[j]? = some x ∧ p x = true) ∧
      ∀ k, k < j → ∀ x, l[k]? = some x → p x = false := by
  have := findIdx?_go_spec p l 0 j h
  simpa using this

theorem findIdx?_of_spec {α : Type} (p : α → Bool) (l : List α) (i : Nat)
    (hlen : i < l.length) (hi : ∀ x, l[i]? = some x → p x = true)
    (hmin : ∀ j, j < i → ∀ x, l[j]? = some x → p x = false) :
    List.findIdx? p l = some i := by
  have := findIdx?_go_of_spec p l 0 i hlen hi hmin
  simpa using this

theorem colIdx?_spec (df : DataFrame) (n : String) (i : Nat) (h : colIdx? df n = some i) :
    i < df.cols.length ∧ df.cols[i]? = some n := by
  rcases findIdx?_spec _ _ _ h with ⟨h1, ⟨x, hx1, hx2⟩, _⟩
  refine ⟨h1, ?_⟩
  rw [hx1]
  simpa using hx2.symm

theorem getCol?_length (df : DataFrame) (n : String) (l : List Cell)
    (h : getCol? df n = some l) : l.length = df.rows.length := by
  unfold getCol? at h
  rcases hc : colIdx? df n with _ | i <;> rw [hc] at h <;> simp at h
  rw [← h]
  simp

theorem map_getD_set_zip (L i : Nat) (hiL : i < L) :
    ∀ (rows : List (List Cell)) (vals : List Cell), rows.length = vals.length →
      (((rows.zip vals).map fun p => (fitRow L p.1).set i p.2).map
        fun r => r.getD i .null) = vals := by
  intro rows
  induction rows with
  | nil => intro vals h; cases vals <;> simp_all
  | cons r rs ih =>
    intro vals h
    cases vals with
    | nil => simp at h
    | cons v vs =>
      simp only [List.zip_cons_cons, List.map_cons, List.cons.injEq]
      refine ⟨?_, ih vs (by simpa using h)⟩
      rw [List.getD_eq_getElem?_getD, List.getElem?_set]
      simp [fitRow_length, hiL]

theorem map_getD_set_zip_ne (L i j : Nat) (hj : j < L) (hij : i ≠ j) :
    ∀ (rows : List (List Cell)) (vals : List Cell), rows.length = vals.length →
      (((rows.zip vals).map fun p => (fitRow L p.1).set i p.2).map
        fun r => r.getD j .null) = rows.map fun r => r.getD j .null := by
  intro rows
  induction rows with
  | nil => intro vals h; cases vals <;> simp_all
  | cons r rs ih =>
    intro vals h
    cases vals with
    | nil => simp at h
    | cons v vs =>
      simp only [List.zip_cons_cons, List.map_cons, List.cons.injEq]
      refine ⟨?_, ih vs (by simpa using h)⟩
      rw [List.getD_eq_getElem?_getD, List.getElem?_set_ne hij, ← List.getD_eq_getElem?_getD]
      exact fitRow_getD L r j hj

theorem map_getD_append_zip (L : Nat) :
    ∀ (rows : List (List Cell)) (vals : List Cell), rows.length = vals.length →
      (((rows.zip vals).map fun p => fitRow L p.1 ++ [p.2]).map
        fun r => r.getD L .null) = vals := by
  intro rows
  induction rows with
  | nil => intro vals h; cases vals <;> simp_all
  | cons r rs ih =>
    intro vals h
    cases vals with
    | nil => simp at h
    | cons v vs =>
      simp only [List.zip_cons_cons, List.map_cons, List.cons.injEq]
      refine ⟨?_, ih vs (by simpa using h)⟩
      rw [List.getD_eq_getElem?_getD, List.getElem?_append_right (by simp [fitRow_length])]
      simp [fitRow_length]

theorem map_getD_append_zip_lt (L j : Nat) (hj : j < L) :
    ∀ (rows : List (List Cell)) (vals : List Cell), rows.length = vals.length →
      (((rows.zip vals).map fun p => fitRow L p.1 ++ [p.2]).map
        fun r => r.getD j .null) = rows.map fun r => r.getD j .null := by
  intro rows
  induction rows with
  | nil => intro vals h; cases vals <;> simp_all
  | cons r rs ih =>
    intro vals h
    cases vals with
    | nil => simp at h
    | cons v vs =>
      simp only [List.zip_cons_cons, List.map_cons, List.cons.injEq]
      refine ⟨?_, ih vs (by simpa using h)⟩
      rw [List.getD_eq_getElem?_getD,
        @List.getElem?_append Cell (fitRow L r) _ _, fitRow_length]
      simp only [hj, if_true]
      rw [← List.getD_eq_getElem?_getD]
      exact fitRow_getD L r j hj

theorem Option_some_or {A : Type} (a : A) (o : Option A) : (some a).or o = some a := rfl

theorem setCol_none_def (df : DataFrame) (n : String) (vals : List Cell)
    (h : colIdx? df n = none) :
    setCol df n vals =
      { cols := df.cols ++ [n]
        rows := (df.rows.zip vals).map fun p => fitRow df.cols.length p.1 ++ [p.2] } := by
  unfold setCol
  rw [h]

theorem setCol_some_def (df : DataFrame) (n : String) (vals : List Cell) (i : Nat)
    (h : colIdx? df n = some i) :
    setCol df n vals =
      { cols := df.cols
        rows := (df.rows.zip vals).map fun p => (fitRow df.cols.length p.1).set i p.2 } := by
  unfold setCol
  rw [h]

theorem setCol_getCol_self (df : DataFrame) (n : String) (vals : List Cell)
    (hv : vals.length = df.rows.length) :
    getCol? (setCol df n vals) n = some vals := by
  rcases hc : colIdx? df n with _ | i
  · rw [setCol_none_def df n vals hc]
    have hcn : List.findIdx? (· == n) df.cols = none := hc
    unfold getCol? colIdx?
    simp only
    rw [List.findIdx?_append, hcn]
    simp only [Option.none_or, List.findIdx?_cons, beq_self_eq_true, if_true,
      Option.map_some', Nat.zero_add]
    simp only [Option.some.injEq]
    exact map_getD_append_zip df.cols.length df.rows vals hv.symm
  · rw [setCol_some_def df n vals i hc]
    have hci : List.findIdx? (· == n) df.cols = some i := hc
    unfold getCol? colIdx?
    simp only
    rw [hci]
    simp only [Option.map_some', Option.some.injEq]
    exact map_getD_set_zip df.cols.length i (colIdx?_spec df n i hc).1 df.rows vals hv.symm

theorem setCol_getCol_other (df : DataFrame) (n n' : String) (vals : List Cell)
    (hv : vals.length = df.rows.length) (hne : n' ≠ n) :
    getCol? (setCol df n vals) n' = getCol? df n' := by
  have hnn : (n == n') = false := by
    simp only [beq_eq_false_iff_ne, ne_eq]
    exact fun h => hne h.symm
  rcases hc : colIdx? df n with _ | i
  · rw [setCol_none_def df n vals hc]
    unfold getCol? colIdx?
    simp only
    rw [List.findIdx?_append]
    rcases hc' : List.findIdx? (· == n') df.cols with _ | j
    · simp [List.findIdx?_cons, hnn]
    · simp only [Option_some_or, Option.map_some', Option.some.injEq]
      exact map_getD_append_zip_lt df.cols.length j (findIdx?_spec _ _ _ hc').1
        df.rows vals hv.symm
  · rw [setCol_some_def df n vals i hc]
    unfold getCol? colIdx?
    simp only
    rcases hc' : List.findIdx? (· == n') df.cols with _ | j
    · simp
    · simp only [Option.map_some', Option.some.injEq]
      have hij : i ≠ j := by
        intro he
        subst he
        have h1 := (colIdx?_spec df n i hc).2
        rcases (findIdx?_spec _ _ _ hc').2.1 with ⟨x, hx1, hx2⟩
        rw [h1, Option.some.injEq] at hx1
        have hx2' : x = n' := by simpa using hx2
        subst hx2'
        exact hne hx1.symm
      exact map_getD_set_zip_ne df.cols.length i j (findIdx?_spec _ _ _ hc').1 hij
        df.rows vals hv.symm

theorem setCol_cols_mem (df : DataFrame) (n : String) (vals : List Cell) (c : String)
    (h : c ∈ (setCol df n vals).cols) : c ∈ df.cols ∨ c = n := by
  unfold setCol at h
  rcases hc : colIdx? df n with _ | i <;> rw [hc] at h <;> simp_all

theorem setCol_rows_length (df : DataFrame) (n : String) (vals : List Cell)
    (hv : vals.length = df.rows.length) :
    (setCol df n vals).rows.length = df.rows.length := by
  unfold setCol
  rcases hc : colIdx? df n with _ | i <;> simp [List.length_zip, hv]

theorem applyMask_mem {α : Type} (p : α → Bool) :
    ∀ (l : List α) (x : α), x ∈ applyMask (l.map p) l → p x = true := by
  intro l
  induction l with
  | nil => intro x h; simp [applyMask] at h
  | cons a t ih =>
    intro x h
    simp only [List.map_cons, applyMask] at h
    by_cases hp : p a
    · simp only [hp, if_true, List.mem_cons] at h
      rcases h with rfl | h
      · exact hp
      · exact ih x h
    · simp only [hp, Bool.false_eq_true, if_false] at h
      exact ih x h

theorem applyMask_sub {α : Type} (p : α → Bool) :
    ∀ (l : List α) (x : α), x ∈ applyMask (l.map p) l → x ∈ l := by
  intro l
  induction l with
  | nil => intro x h; simp [applyMask] at h
  | cons a t ih =>
    intro x h
    simp only [List.map_cons, applyMask] at h
    by_cases hp : p a
    · simp only [hp, if_true, List.mem_cons] at h
      rcases h with rfl | h
      · exact List.mem_cons_self _ _
      · exact List.mem_cons_of_mem a (ih x h)
    · simp only [hp, Bool.false_eq_true, if_false] at h
      exact List.mem_cons_of_mem a (ih x h)

theorem dropColsBy_cols_mem (df : DataFrame) (names : List String) (c : String)
    (h : c ∈ (dropColsBy df names).cols) : c ∈ df.cols ∧ c ∉ names := by
  unfold dropColsBy at h
  simp only at h
  constructor
  · exact applyMask_sub _ df.cols c h
  · have := applyMask_mem (fun c => decide (c ∉ names)) df.cols c h
    simpa using this

theorem sanitize_data_cols_mem (df : DataFrame) (c : String)
    (h : c ∈ (sanitize_data df).cols) : c ∈ df.cols ∧ c ∉ sensitive_columns := by
  unfold sanitize_data at h
  simp only at h
  exact dropColsBy_cols_mem df sensitive_columns c h

theorem getCol?_imp_colIdx? (df : DataFrame) (n : String) (cells : List Cell)
    (h : getCol? df n = some cells) : ∃ i, colIdx? df n = some i := by
  unfold getCol? at h
  rcases hc : colIdx? df n with _ | i
  · rw [hc] at h; simp at h
  · exact ⟨i, rfl⟩

theorem convertColStep_cols (d : DataFrame) (col : String) :
    (convertColStep d col).cols = d.cols := by
  unfold convertColStep
  rcases h : getCol? d col with _ | cells
  · rfl
  · rcases getCol?_imp_colIdx? d col cells h with ⟨i, hi⟩
    show (setCol d col (cells.map convertCell)).cols = d.cols
    rw [setCol_some_def d col (cells.map convertCell) i hi]

theorem convertColStep_rows_length (d : DataFrame) (col : String) :
    (convertColStep d col).rows.length = d.rows.length := by
  unfold convertColStep
  rcases h : getCol? d col with _ | cells
  · rfl
  · exact setCol_rows_length d col (cells.map convertCell)
      (by simp [getCol?_length d col cells h])

theorem convertColStep_getCol_self (d : DataFrame) (col : String) (cells : List Cell)
    (h : getCol? d col = some cells) :
    getCol? (convertColStep d col) col = some (cells.map convertCell) := by
  unfold convertColStep
  rw [h]
  exact setCol_getCol_self d col (cells.map convertCell)
    (by simp [getCol?_length d col cells h])

theorem convertColStep_getCol_other (d : DataFrame) (col n' : String) (hne : n' ≠ col) :
    getCol? (convertColStep d col) n' = getCol? d n' := by
  unfold convertColStep
  rcases h : getCol? d col with _ | cells
  · rfl
  · exact setCol_getCol_other d col n' (cells.map convertCell)
      (by simp [getCol?_length d col cells h]) hne

theorem convert_numeric_columns_cols (df : DataFrame) :
    (convert_numeric_columns df).cols = df.cols := by
  unfold convert_numeric_columns numeric_columns
  simp only [List.foldl_cons, List.foldl_nil, convertColStep_cols]

theorem convert_numeric_columns_rows_length (df : DataFrame) :
    (convert_numeric_columns df).rows.length = df.rows.length := by
  unfold convert_numeric_columns numeric_columns
  simp only [List.foldl_cons, List.foldl_nil, convertColStep_rows_length]

/-- The column labels `calculate_derived_metrics` may add. -/
def derivedNames : List String :=
  ["Win", "Loss", "Break_Even", "Return_Percentage", "Position_Size", "Avg_Entry_Price",
   "Day_of_Week", "Month", "Hour"]

theorem addWinLossFlags_cols_mem (df : DataFrame) (c : String)
    (h : c ∈ (addWinLossFlags df).cols) :
    c ∈ df.cols ∨ c = "Win" ∨ c = "Loss" ∨ c = "Break_Even" := by
  unfold addWinLossFlags at h
  rcases hp : getCol? df "Realized P&L" with _ | pnl <;> rw [hp] at h
  · exact Or.inl h
  · rcases setCol_cols_mem _ _ _ _ h with h1 | rfl
    · rcases setCol_cols_mem _ _ _ _ h1 with h2 | rfl
      · rcases setCol_cols_mem _ _ _ _ h2 with h3 | rfl
        · exact Or.inl h3
        · exact Or.inr (Or.inl rfl)
      · exact Or.inr (Or.inr (Or.inl rfl))
    · exact Or.inr (Or.inr (Or.inr rfl))

theorem addReturnPct_cols_mem (df : DataFrame) (c : String)
    (h : c ∈ (addReturnPct df).cols) :
    c ∈ df.cols ∨ c = "Return_Percentage" := by
  unfold addReturnPct at h
  rcases h1 : getCol? df "Buy Value" with _ | bv <;> rw [h1] at h
  · exact Or.inl h
  · rcases h2 : getCol? df "Realized P&L" with _ | pnl <;> rw [h2] at h
    · exact Or.inl h
    · rcases setCol_cols_mem _ _ _ _ h with h3 | rfl
      · exact Or.inl h3
      · exact Or.inr rfl

theorem addPositionMetrics_cols_mem (df : DataFrame) (c : String)
    (h : c ∈ (addPositionMetrics df).cols) :
    c ∈ df.cols ∨ c = "Position_Size" ∨ c = "Avg_Entry_Price" := by
  unfold addPositionMetrics at h
  rcases h1 : getCol? df "Quantity" with _ | qty <;> rw [h1] at h
  · exact Or.inl h
  · simp only at h
    rcases h2 : getCol? (setCol df "Position_Size" (qty.map positionSizeCell)) "Buy Value"
      with _ | bv <;> rw [h2] at h
    · rcases setCol_cols_mem _ _ _ _ h with h3 | rfl
      · exact Or.inl h3
      · exact Or.inr (Or.inl rfl)
    · rcases setCol_cols_mem _ _ _ _ h with h3 | rfl
      · rcases setCol_cols_mem _ _ _ _ h3 with h4 | rfl
        · exact Or.inl h4
        · exact Or.inr (Or.inl rfl)
      · exact Or.inr (Or.inr rfl)

theorem addDateDerived_cols_mem (dtParse : DtParse) (df : DataFrame) (c : String)
    (h : c ∈ (addDateDerived dtParse df).cols) :
    c ∈ df.cols ∨ c = "Day_of_Week" ∨ c = "Month" ∨ c = "Hour" := by
  unfold addDateDerived at h
  rcases h1 : df.cols.filter isDateColName with _ | ⟨dc, rest⟩ <;> rw [h1] at h
  · exact Or.inl h
  · dsimp only at h
    have hdc : dc ∈ df.cols := by
      have : dc ∈ df.cols.filter isDateColName := by rw [h1]; exact List.mem_cons_self _ _
      exact List.mem_of_mem_filter this
    rcases h2 : getCol? df dc with _ | cells <;> rw [h2] at h
    · exact Or.inl h
    · dsimp only at h
      rcases h3 : dtParse cells with _ | ⟨⟨parsed, days, months, hours⟩⟩ <;> rw [h3] at h
      all_goals dsimp only at h
      · exact Or.inl h
      · by_cases h4 : parsed.length = cells.length ∧ days.length = cells.length ∧
            months.length = cells.length ∧ hours.length = cells.length
        · rw [if_pos h4] at h
          rcases setCol_cols_mem _ _ _ _ h with h5 | rfl
          · rcases setCol_cols_mem _ _ _ _ h5 with h6 | rfl
            · rcases setCol_cols_mem _ _ _ _ h6 with h7 | rfl
              · rcases setCol_cols_mem _ _ _ _ h7 with h8 | rfl
                · exact Or.inl h8
                · exact Or.inl hdc
              · exact Or.inr (Or.inl rfl)
            · exact Or.inr (Or.inr (Or.inl rfl))
          · exact Or.inr (Or.inr (Or.inr rfl))
        · rw [if_neg h4] at h
          exact Or.inl h

theorem calculate_derived_metrics_cols_mem (dtParse : DtParse) (df : DataFrame) (c : String)
    (h : c ∈ (calculate_derived_metrics dtParse df).cols) :
    c ∈ df.cols ∨ c ∈ derivedNames := by
  unfold calculate_derived_metrics at h
  rcases addDateDerived_cols_mem _ _ _ h with h1 | h1 | h1 | h1
  · rcases addPositionMetrics_cols_mem _ _ h1 with h2 | h2 | h2
    · rcases addReturnPct_cols_mem _ _ h2 with h3 | h3
      · rcases addWinLossFlags_cols_mem _ _ h3 with h4 | h4 | h4 | h4
        · exact Or.inl h4
        all_goals subst h4; right; decide
      · subst h3; right; decide
    all_goals subst h2; right; decide
  all_goals subst h1; right; decide

theorem clean_column_names_cols (df : DataFrame) :
    (clean_column_names df).cols = df.cols.map canonName := rfl

set_option maxHeartbeats 1000000 in
/-- Successful loads factor through the pipeline stages, with
`clean_column_names` applied exactly when the header was detected at
row 0. -/
theorem load_ok_elim (dtParse : DtParse) (df out : DataFrame)
    (h : load_zerodha_pnl dtParse df = .ok out) :
    ∃ df1,
      ((detect_header_row df > 0 ∧ df1 = setHeaderAt df (detect_header_row df)) ∨
        (detect_header_row df = 0 ∧ df1 = clean_column_names df)) ∧
      out = calculate_derived_metrics dtParse (convert_numeric_columns (sanitize_data df1)) := by
  unfold load_zerodha_pnl at h
  by_cases he : df.rows.isEmpty
  · rw [if_pos he] at h; cases h
  · rw [if_neg he] at h
    dsimp only at h
    by_cases hz : detect_header_row df > 0
    · refine ⟨setHeaderAt df (detect_header_row df), Or.inl ⟨hz, rfl⟩, ?_⟩
      rw [if_pos hz] at h
      rcases hv : validate_data_integrity (convert_numeric_columns
        (sanitize_data (setHeaderAt df (detect_header_row df)))) with e | u <;> rw [hv] at h
      · cases h
      · cases h; rfl
    · have hz0 : detect_header_row df = 0 := by omega
      refine ⟨clean_column_names df, Or.inr ⟨hz0, rfl⟩, ?_⟩
      rw [if_neg hz] at h
      rcases hv : validate_data_integrity (convert_numeric_columns
        (sanitize_data (clean_column_names df))) with e | u <;> rw [hv] at h
      · cases h
      · cases h; rfl

theorem load_cols_mem (dtParse : DtParse) (df out : DataFrame)
    (h : load_zerodha_pnl dtParse df = .ok out) (c : String) (hc : c ∈ out.cols) :
    c ∉ sensitive_columns := by
  rcases load_ok_elim dtParse df out h with ⟨df1, _, rfl⟩
  rcases calculate_derived_metrics_cols_mem _ _ _ hc with h1 | h1
  · rw [convert_numeric_columns_cols] at h1
    exact (sanitize_data_cols_mem _ _ h1).2
  · simp only [derivedNames, List.mem_cons, List.not_mem_nil, or_false] at h1
    rcases h1 with rfl | rfl | rfl | rfl | rfl | rfl | rfl | rfl | rfl <;> decide

deriving instance DecidableEq for Except

/-! ### Claim C1 -/

/-- A datetime parser that always fails (no date column is ever parsed). -/
def dtNone : DtParse := fun _ => none

/-- An accepted input table carrying a "Phone" column. -/
def cexC1df : DataFrame :=
  { cols := ["Symbol", "Quantity", "Buy Value", "Sell Value", "Realized P&L", "Phone"]
    rows := [[.str "RELIANCE", .int 10, .num 2500, .num 2600, .num 100, .str "9999999999"]] }

/-- C1 counterexample: `normalize()` accepts a table with a "Phone"
column and returns it with the "Phone" column still present — only
"Client Id", "Order Id" and "Trade Id" are dropped, not "PAN"/"Phone". -/
theorem c1_phone_column_survives_normalize :
    ∃ out, load_zerodha_pnl dtNone cexC1df = .ok out ∧ "Phone" ∈ out.cols := by
  refine ⟨_, rfl, ?_⟩
  decide

/-- C1 (amended): for every input accepted by `normalize()`, the output
contains no column named "Client Id", "Order Id" or "Trade Id" — these
are the sensitive columns the code removes (columns named "PAN" or
"Phone" are not removed). -/
theorem c1_normalize_drops_listed_sensitive_columns (dtParse : DtParse) (df out : DataFrame)
    (h : load_zerodha_pnl dtParse df = .ok out) :
    "Client Id" ∉ out.cols ∧ "Order Id" ∉ out.cols ∧ "Trade Id" ∉ out.cols := by
  refine ⟨fun hc => ?_, fun hc => ?_, fun hc => ?_⟩ <;>
    exact load_cols_mem dtParse df out h _ hc (by decide)

/-- An accepted input table carrying a "Client Id" column. -/
def wdfC1 : DataFrame :=
  { cols := ["Symbol", "Quantity", "Buy Value", "Sell Value", "Realized P&L", "Client Id"]
    rows := [[.str "TCS", .int 5, .num 1500, .num 1400, .num (-100), .str "C123"]] }

/-- The normalized output of `wdfC1`. -/
def woutC1 : DataFrame :=
  { cols := ["Symbol", "Quantity", "Buy Value", "Sell Value", "Realized P&L", "Win", "Loss",
             "Break_Even", "Return_Percentage", "Position_Size", "Avg_Entry_Price"]
    rows := [[.str "TCS", .num 5, .num 1500, .num 1400, .num (-100), .bool false, .bool true,
              .bool false, .num (-20/3 : ℚ), .num 5, .num 300]] }

/-- C1 witness: a concrete accepted input with a "Client Id" column whose
normalized output carries none of the dropped sensitive columns. -/
theorem c1_witness :
    "Client Id" ∉ woutC1.cols ∧ "Order Id" ∉ woutC1.cols ∧ "Trade Id" ∉ woutC1.cols :=
  c1_normalize_drops_listed_sensitive_columns dtNone wdfC1 woutC1 (by decide)

/-! ### Claim C2 -/

/-- An accepted input whose header is detected at row 1; the header row
carries a non-canonical extra label "qty ". -/
def cexC2df : DataFrame :=
  { cols := ["A", "B", "C", "D", "E", "F"]
    rows := [[.str "Trade Report", .null, .null, .null, .null, .null],
             [.str "Symbol", .str "Quantity", .str "Buy Value", .str "Sell Value",
              .str "Realized P&L", .str "qty "],
             [.str "RELIANCE", .str "10", .str "2500", .str "2600", .str "100", .str "x"]] }

/-- C2 counterexample: when the header is detected at a later row, the
header row's labels are taken verbatim — "qty " is neither trimmed nor
title-cased nor aliased in the accepted output. -/
theorem c2_later_header_not_canonicalized :
    ∃ out, load_zerodha_pnl dtNone cexC2df = .ok out ∧ "qty " ∈ out.cols ∧
      canonName "qty " ≠ "qty " := by
  refine ⟨_, rfl, ?_, ?_⟩ <;> decide

/-- C2 (amended): the canonicalization (trim, title-case, alias table)
is applied exactly when the header is detected at row 0; then every
output column is either the canonical form of an input column or one of
the derived columns.  (When the header is a later row, its labels are
used verbatim, as the counterexample shows.) -/
theorem c2_header_row0_columns_canonical (dtParse : DtParse) (df out : DataFrame)
    (h0 : detect_header_row df = 0) (h : load_zerodha_pnl dtParse df = .ok out) :
    ∀ c ∈ out.cols, c ∈ df.cols.map canonName ∨ c ∈ derivedNames := by
  intro c hc
  rcases load_ok_elim dtParse df out h with ⟨df1, hbr, rfl⟩
  rcases hbr with ⟨hgt, _⟩ | ⟨_, rfl⟩
  · omega
  · rcases calculate_derived_metrics_cols_mem _ _ _ hc with h1 | h1
    · rw [convert_numeric_columns_cols] at h1
      have h2 := (sanitize_data_cols_mem _ _ h1).1
      rw [clean_column_names_cols] at h2
      exact Or.inl h2
    · exact Or.inr h1

/-- An accepted input with untrimmed, lower-case, aliased column labels
and the header in row 0. -/
def wdfC2 : DataFrame :=
  { cols := [" symbol ", "qty", "buy value", "sell value", "p&l"]
    rows := [[.str "INFY", .int 2, .num 100, .num 150, .num 50]] }

/-- The normalized output of `wdfC2`. -/
def woutC2 : DataFrame :=
  { cols := ["Symbol", "Quantity", "Buy Value", "Sell Value", "Realized P&L", "Win", "Loss",
             "Break_Even", "Return_Percentage", "Position_Size", "Avg_Entry_Price"]
    rows := [[.str "INFY", .num 2, .num 100, .num 150, .num 50, .bool true, .bool false,
              .bool false, .num 50, .num 2, .num 50]] }

/-- C2 witness: a concrete header-at-row-0 input; each output column of
the accepted output is canonical or derived. -/
theorem c2_witness :
    "Realized P&L" ∈ wdfC2.cols.map canonName ∨ "Realized P&L" ∈ derivedNames :=
  c2_header_row0_columns_canonical dtNone wdfC2 woutC2 (by decide) (by decide)
    "Realized P&L" (by decide)

/-! ### Claim C5 -/

theorem getElem?_of_getD {α : Type} [Inhabited α] (l : List α) (j : Nat) (d : α)
    (h : j < l.length) : l[j]? = some (l.getD j d) := by
  rw [List.getD_eq_getElem?_getD, List.getElem?_eq_getElem h]
  rfl

/-- C5: if row 0 of the table holds no header-indicator token and row `j`
(`j ≥ 1`) is the first later row holding one, `detect_header_row` picks
`j`, and the header application step of `load_zerodha_pnl` makes row `j`
the column labels and keeps exactly the rows after row `j`. -/
theorem c5_first_indicator_row_becomes_header (df : DataFrame) (j : Nat)
    (h0 : rowHasIndicator (df.rows.headD []) = false)
    (hj1 : 1 ≤ j) (hjlen : j < df.rows.length)
    (hj : rowHasIndicator (df.rows.getD j []) = true)
    (hmin : ∀ k, 1 ≤ k → k < j → rowHasIndicator (df.rows.getD k []) = false) :
    detect_header_row df = j ∧ 0 < detect_header_row df ∧
      (setHeaderAt df j).cols = (df.rows.getD j []).map cellStr ∧
      (setHeaderAt df j).rows = df.rows.drop (j + 1) := by
  have hd : detect_header_row df = j := by
    unfold detect_header_row
    rw [h0]
    simp only [Bool.false_eq_true, if_false]
    have hfind : (df.rows.drop 1).findIdx? rowHasIndicator = some (j - 1) := by
      apply findIdx?_of_spec
      · simpa using (by omega : j - 1 < df.rows.length - 1)
      · intro x hx
        rw [List.getElem?_drop, getElem?_of_getD df.rows (1 + (j - 1)) [] (by omega)] at hx
        have : 1 + (j - 1) = j := by omega
        rw [this] at hx
        cases hx
        exact hj
      · intro k hk x hx
        rw [List.getElem?_drop, getElem?_of_getD df.rows (1 + k) [] (by omega)] at hx
        cases hx
        exact hmin (1 + k) (by omega) (by omega)
    rw [hfind]
    dsimp only
    omega
  exact ⟨hd, by omega, rfl, rfl⟩

/-- The table of spec scenario P5: a data row first, the header tokens in
the second row. -/
def p5df : DataFrame :=
  { cols := ["0", "1", "2", "3", "4"]
    rows := [[.str "RELIANCE", .int 10, .num 2500, .num 2600, .num 100],
             [.str "Symbol", .str "Quantity", .str "Buy Value", .str "Sell Value",
              .str "Realized P&L"]] }

/-- C5 witness: on the P5 table the second row (index 1) is selected as
the header; the first row is discarded and no data rows remain. -/
theorem c5_witness :
    detect_header_row p5df = 1 ∧ 0 < detect_header_row p5df ∧
      (setHeaderAt p5df 1).cols = (p5df.rows.getD 1 []).map cellStr ∧
      (setHeaderAt p5df 1).rows = p5df.rows.drop 2 :=
  c5_first_indicator_row_becomes_header p5df 1 (by decide) (by decide) (by decide) (by decide)
    (fun k hk1 hk2 => absurd (lt_of_le_of_lt hk1 hk2) (lt_irrefl 1))

/-! ### Claim C8 -/

theorem convert_getCol_mem (df : DataFrame) (col : String) (cells : List Cell)
    (hmem : col ∈ numeric_columns) (h : getCol? df col = some cells) :
    getCol? (convert_numeric_columns df) col = some (cells.map convertCell) := by
  have hQ : col = "Quantity" ∨ col = "Buy Value" ∨ col = "Sell Value" ∨
      col = "Realized P&L" := by
    simpa [numeric_columns] using hmem
  unfold convert_numeric_columns numeric_columns
  simp only [List.foldl_cons, List.foldl_nil]
  rcases hQ with rfl | rfl | rfl | rfl
  · rw [convertColStep_getCol_other _ _ _ (by decide),
      convertColStep_getCol_other _ _ _ (by decide),
      convertColStep_getCol_other _ _ _ (by decide)]
    exact convertColStep_getCol_self df _ cells h
  · rw [convertColStep_getCol_other _ _ _ (by decide),
      convertColStep_getCol_other _ _ _ (by decide)]
    apply convertColStep_getCol_self
    rw [convertColStep_getCol_other _ _ _ (by decide)]
    exact h
  · rw [convertColStep_getCol_other _ _ _ (by decide)]
    apply convertColStep_getCol_self
    rw [convertColStep_getCol_other _ _ _ (by decide),
      convertColStep_getCol_other _ _ _ (by decide)]
    exact h
  · apply convertColStep_getCol_self
    rw [convertColStep_getCol_other _ _ _ (by decide),
      convertColStep_getCol_other _ _ _ (by decide),
      convertColStep_getCol_other _ _ _ (by decide)]
    exact h

theorem transformNumStr_chars (s : String) :
    ∀ c ∈ (transformNumStr s).data, c ≠ ',' ∧ c ≠ '(' ∧ c ≠ ')' := by
  intro c hc
  have hc' : c ∈ ((s.data.filter (· ≠ ',')).map fun x =>
      if x = '(' then '-' else x).filter (· ≠ ')') := hc
  rcases List.mem_filter.mp hc' with ⟨hcm, hcp⟩
  rcases List.mem_map.mp hcm with ⟨c0, hc0m, rfl⟩
  rcases List.mem_filter.mp hc0m with ⟨_, hc0p⟩
  refine ⟨?_, ?_, by simpa using hcp⟩
  · by_cases h : c0 = '('
    · simp [h]
    · simpa [h] using hc0p
  · by_cases h : c0 = '('
    · simp [h]
    · simp [h]

theorem convertCell_null_or_num (c : Cell) :
    convertCell c = .null ∨ ∃ q, convertCell c = .num q := by
  unfold convertCell
  rcases h : parseFloat? (transformNumStr (cellStr c)) with _ | q
  · left; rfl
  · right; exact ⟨q, rfl⟩

/-- C8: the numeric coercion strips thousands-separator commas and the
accounting parentheses (the transformed cell text never contains `,`,
`(` or `)`, and "(100)" parses to −100.0), every cell becomes either a
number or null (never an error), and `convert_numeric_columns` applies
exactly this coercion to each of the four numeric columns present. -/
theorem c8_tolerant_numeric_coercion :
    convertCell (.str "(100)") = .num (-100) ∧
    convertCell (.str "1,234.5") = .num (2469 / 2) ∧
    convertCell (.str "stray text") = .null ∧
    (∀ s : String, ∀ c ∈ (transformNumStr s).data, c ≠ ',' ∧ c ≠ '(' ∧ c ≠ ')') ∧
    (∀ c : Cell, convertCell c = .null ∨ ∃ q, convertCell c = .num q) ∧
    (∀ (df : DataFrame) (col : String) (cells : List Cell), col ∈ numeric_columns →
      getCol? df col = some cells →
      getCol? (convert_numeric_columns df) col = some (cells.map convertCell)) :=
  ⟨by decide, by decide, by decide, transformNumStr_chars, convertCell_null_or_num,
    convert_getCol_mem⟩

/-- C8 witness: spec scenario C — a Realized P&L column holding "(100)"
converts to the numeric −100.0. -/
theorem c8_witness :
    getCol? (convert_numeric_columns ⟨["Realized P&L"], [[.str "(100)"]]⟩) "Realized P&L" =
      some [Cell.num (-100)] := by
  have h := c8_tolerant_numeric_coercion.2.2.2.2.2 ⟨["Realized P&L"], [[.str "(100)"]]⟩
    "Realized P&L" [.str "(100)"] (by decide) (by decide)
  rw [h]
  decide

/-! ### Claim C9 -/

/-- C9: a file-like input without a `name` attribute defaults to the
".bin" extension, which is never in the supported set, so
`load_zerodha_pnl` raises `DataSecurityError` for every such input —
whatever its size (within or beyond the 50 MB limit) and whatever any
reader would have parsed from its content. -/
theorem c9_nameless_stream_always_raises_security_error
    (readTable : FileSource → Except PErr DataFrame) (dtParse : DtParse) (size : Nat) :
    ∃ msg, load_zerodha_pnl_from readTable dtParse (.nameless size) = .error (.security msg) := by
  have hval : ∃ msg, validate_file_security (.nameless size) = .error (.security msg) := by
    unfold validate_file_security
    by_cases h : 50 * 1024 * 1024 < (FileSource.nameless size).sizeOf
    · exact ⟨"File too large", by rw [if_pos h]⟩
    · refine ⟨"Unsupported file type", ?_⟩
      rw [if_neg h, if_pos ?_]
      show ¬ (supported_extensions.contains (pyLower ".bin") = true)
      decide
  rcases hval with ⟨msg, hv⟩
  refine ⟨msg, ?_⟩
  unfold load_zerodha_pnl_from
  rw [hv]

/-! ### Claim C10 -/

theorem storeLoop_committed (source : String) (cols : List String) :
    ∀ (rows : List (List Cell)) (c : Conn) (cnt : Nat),
      ((storeTradesLoop source cols rows c cnt).1).committed = c.committed := by
  intro rows
  induction rows with
  | nil => intro c cnt; rfl
  | cons row rest ih =>
    intro c cnt
    unfold storeTradesLoop
    rcases h : extractTrade cols row with e | td
    · rfl
    · dsimp only
      by_cases hex : c.hashExists (calculate_data_hash td)
      · rw [if_pos hex]
        exact ih c cnt
      · rw [if_neg hex]
        rw [ih]
        rfl

/-- C10: `store_trades` commits once, after the whole per-row loop; if
any row raises during the call, the error propagates and the persisted
state is exactly the state before the call — no record of the call is
stored. -/
theorem c10_store_trades_atomic_per_call (df : DataFrame) (source : String)
    (st st' : DBState) (e : Unit)
    (h : store_trades df source st = (st', .error e)) : st' = st := by
  unfold store_trades at h
  dsimp only at h
  have hcom := storeLoop_committed source df.cols df.rows ⟨st.trades, []⟩ 0
  rcases hl : storeTradesLoop source df.cols df.rows ⟨st.trades, []⟩ 0 with ⟨c, r⟩
  rw [hl] at h hcom
  rcases r with e' | cnt
  · dsimp only [Conn.persisted] at h
    have h1 : DBState.mk c.committed = st' := congrArg Prod.fst h
    rw [← h1, hcom]
  · exfalso
    simpa using congrArg (fun p => p.2) h

/-- A store call whose second row raises in `float(...)`: the first row
is valid and would have been inserted. -/
def wdfC10 : DataFrame :=
  { cols := ["Symbol", "Quantity"]
    rows := [[.str "TCS", .int 5], [.str "INFY", .str "not a number"]] }

/-- An arbitrary pre-existing stored row. -/
def wRowC10 : StoredTrade :=
  { trade := { symbol := "X", quantity := some 1, buyValue := some 0, sellValue := some 0,
               realizedPnl := some 0, buyAverage := some 0, sellAverage := some 0,
               tradeType := "", exchange := "", tradeTime := "" }
    dataSource := "seed", dataHash := "h0" }

/-- C10 witness: the failing call leaves the seeded store unchanged even
though its first row was insertable. -/
theorem c10_witness :
    (store_trades wdfC10 "zerodha" ⟨[wRowC10]⟩).1 = ⟨[wRowC10]⟩ :=
  c10_store_trades_atomic_per_call wdfC10 "zerodha" ⟨[wRowC10]⟩
    (store_trades wdfC10 "zerodha" ⟨[wRowC10]⟩).1 () (by decide)

/-! ### Claim C4 -/

theorem newHashes_cons (seen : List String) (h : String) (t : List String) :
    newHashes seen (h :: t) =
      if h ∈ seen then newHashes seen t else h :: newHashes (seen ++ [h]) t := rfl

theorem newHashes_toFinset :
    ∀ (hs seen : List String), (newHashes seen hs).toFinset = hs.toFinset \ seen.toFinset := by
  intro hs
  induction hs with
  | nil => intro seen; simp [newHashes]
  | cons h t ih =>
    intro seen
    unfold newHashes
    by_cases hm : h ∈ seen
    · rw [if_pos hm, ih]
      ext a
      by_cases ha : a = h <;> simp [ha, hm]
    · rw [if_neg hm]
      simp only [List.toFinset_cons, ih]
      ext a
      by_cases ha : a = h <;> simp [ha, hm]

theorem newHashes_nodup :
    ∀ (hs seen : List String), (newHashes seen hs).Nodup := by
  intro hs
  induction hs with
  | nil => intro seen; simp [newHashes]
  | cons h t ih =>
    intro seen
    unfold newHashes
    by_cases hm : h ∈ seen
    · rw [if_pos hm]; exact ih seen
    · rw [if_neg hm]
      refine List.Nodup.cons ?_ (ih (seen ++ [h]))
      intro hmem
      have := newHashes_toFinset t (seen ++ [h])
      have hf : h ∈ (newHashes (seen ++ [h]) t).toFinset := List.mem_toFinset.mpr hmem
      rw [this] at hf
      simp at hf

theorem newHashes_length (hs seen : List String) :
    (newHashes seen hs).length = (hs.toFinset \ seen.toFinset).card := by
  rw [← newHashes_toFinset hs seen]
  exact (List.toFinset_card_of_nodup (newHashes_nodup hs seen)).symm

theorem hashExists_eq (c : Conn) (h : String) :
    c.hashExists h = decide (h ∈ (c.committed ++ c.pending).map (·.dataHash)) := by
  unfold Conn.hashExists
  by_cases hm : h ∈ (c.committed ++ c.pending).map (·.dataHash)
  · rw [decide_eq_true hm]
    rcases List.mem_map.mp hm with ⟨s, hs1, hs2⟩
    exact List.any_eq_true.mpr ⟨s, hs1, by simp [hs2]⟩
  · rw [decide_eq_false hm]
    rw [List.any_eq_false]
    intro s hs
    by_cases he : s.dataHash = h
    · exact absurd (List.mem_map.mpr ⟨s, hs, he⟩) hm
    · simpa using he

theorem storeLoop_ok_char (source : String) (cols : List String) :
    ∀ (rows : List (List Cell)) (tds : List TradeData),
      rows.mapM (extractTrade cols) = .ok tds →
      ∀ (c : Conn) (cnt : Nat),
        ∃ newS : List StoredTrade,
          storeTradesLoop source cols rows c cnt =
            (⟨c.committed, c.pending ++ newS⟩,
              .ok (cnt + (newHashes ((c.committed ++ c.pending).map (·.dataHash))
                (tds.map calculate_data_hash)).length)) ∧
          newS.map (·.dataHash) =
            newHashes ((c.committed ++ c.pending).map (·.dataHash))
              (tds.map calculate_data_hash) := by
  intro rows
  induction rows with
  | nil =>
    intro tds htds c cnt
    have h0 : (Except.ok ([] : List TradeData) : Except Unit (List TradeData)) =
        Except.ok tds := htds
    cases h0
    exact ⟨[], by simp [storeTradesLoop, newHashes], by simp [newHashes]⟩
  | cons row rest ih =>
    intro tds htds c cnt
    rw [List.mapM_cons] at htds
    rcases hx : extractTrade cols row with e | td <;> rw [hx] at htds
    · exact Except.noConfusion htds
    · rcases hr : rest.mapM (extractTrade cols) with e | tds' <;> rw [hr] at htds
      · exact Except.noConfusion htds
      · have htds' : tds = td :: tds' := by
          have : (Except.ok (td :: tds') : Except Unit (List TradeData)) = Except.ok tds := htds
          cases this
          rfl
        subst htds'
        unfold storeTradesLoop
        rw [hx]
        dsimp only
        rw [hashExists_eq]
        by_cases hm : calculate_data_hash td ∈ (c.committed ++ c.pending).map (·.dataHash)
        · rw [decide_eq_true hm, if_pos rfl]
          have hnew : newHashes ((c.committed ++ c.pending).map (·.dataHash))
              ((td :: tds').map calculate_data_hash) =
              newHashes ((c.committed ++ c.pending).map (·.dataHash))
                (tds'.map calculate_data_hash) := by
            rw [List.map_cons, newHashes_cons, if_pos hm]
          rcases ih tds' hr c cnt with ⟨newS, h1, h2⟩
          exact ⟨newS, by rw [hnew]; exact h1, by rw [hnew]; exact h2⟩
        · rw [decide_eq_false hm]
          simp only [Bool.false_eq_true, if_false]
          set st0 : StoredTrade := ⟨td, source, calculate_data_hash td⟩ with hst0
          have hnew : newHashes ((c.committed ++ c.pending).map (·.dataHash))
              ((td :: tds').map calculate_data_hash) =
              calculate_data_hash td ::
                newHashes ((c.committed ++ c.pending).map (·.dataHash) ++
                  [calculate_data_hash td]) (tds'.map calculate_data_hash) := by
            rw [List.map_cons, newHashes_cons, if_neg hm]
          rcases ih tds' hr (c.insertRow st0) (cnt + 1) with ⟨newS, h1, h2⟩
          have hseen : ((c.insertRow st0).committed ++ (c.insertRow st0).pending).map
              (·.dataHash) =
              (c.committed ++ c.pending).map (·.dataHash) ++ [calculate_data_hash td] := by
            simp [Conn.insertRow, hst0]
          rw [hseen] at h1 h2
          refine ⟨st0 :: newS, ?_, ?_⟩
          · rw [h1, hnew, Prod.mk.injEq]
            constructor
            · simp [Conn.insertRow]
            · rw [Except.ok.injEq, List.length_cons]
              omega
          · rw [List.map_cons, h2, hnew, hst0]

theorem store_trades_ok_char (df : DataFrame) (source : String) (st : DBState)
    (tds : List TradeData) (hex : extractAll df = .ok tds) :
    ∃ newS : List StoredTrade,
      store_trades df source st = (⟨st.trades ++ newS⟩,
        .ok (newHashes (st.trades.map (·.dataHash)) (tds.map calculate_data_hash)).length) ∧
      newS.map (·.dataHash) =
        newHashes (st.trades.map (·.dataHash)) (tds.map calculate_data_hash) := by
  rcases storeLoop_ok_char source df.cols df.rows tds hex ⟨st.trades, []⟩ 0
    with ⟨newS, h1, h2⟩
  have hseen : ((Conn.mk st.trades []).committed ++ (Conn.mk st.trades []).pending).map
      (·.dataHash) = st.trades.map (·.dataHash) := by simp
  rw [hseen] at h1 h2
  refine ⟨newS, ?_, h2⟩
  unfold store_trades
  dsimp only
  rw [h1]
  dsimp only [Conn.commitAll, Conn.persisted]
  simp

/-- C4: storing the same table twice, under any two source tags, inserts
exactly the number of distinct content fingerprints of the table — the
first call inserts them all, the second call inserts zero (every record
whose fingerprint is already present is skipped silently), and the
fingerprint is computed from the trade fields only, never from the
source tag. -/
theorem c4_store_twice_inserts_distinct_fingerprints (df : DataFrame)
    (s1 s2 : String) (st : DBState) (tds : List TradeData)
    (hex : extractAll df = .ok tds)
    (hfresh : ∀ td ∈ tds, calculate_data_hash td ∉ st.trades.map (·.dataHash)) :
    ∃ st1 st2,
      store_trades df s1 st = (st1, .ok (tds.map calculate_data_hash).dedup.length) ∧
      store_trades df s2 st1 = (st2, .ok 0) := by
  rcases store_trades_ok_char df s1 st tds hex with ⟨newS1, h1, h1map⟩
  have hdisj : ∀ h ∈ tds.map calculate_data_hash, h ∉ st.trades.map (·.dataHash) := by
    intro h hh
    rcases List.mem_map.mp hh with ⟨td, htd, rfl⟩
    exact hfresh td htd
  have hlen1 : (newHashes (st.trades.map (·.dataHash)) (tds.map calculate_data_hash)).length =
      (tds.map calculate_data_hash).dedup.length := by
    rw [newHashes_length]
    have hsd : (tds.map calculate_data_hash).toFinset \ (st.trades.map (·.dataHash)).toFinset =
        (tds.map calculate_data_hash).toFinset := by
      apply Finset.sdiff_eq_self_of_disjoint
      rw [Finset.disjoint_left]
      intro a ha hc
      exact hdisj a (List.mem_toFinset.mp ha) (List.mem_toFinset.mp hc)
    rw [hsd, List.card_toFinset]
  rcases store_trades_ok_char df s2 ⟨st.trades ++ newS1⟩ tds hex with ⟨newS2, h2, h2map⟩
  have hseen2 : (st.trades ++ newS1).map (·.dataHash) =
      st.trades.map (·.dataHash) ++
        newHashes (st.trades.map (·.dataHash)) (tds.map calculate_data_hash) := by
    rw [List.map_append, h1map]
  have hlen2 : (newHashes ((st.trades ++ newS1).map (·.dataHash))
      (tds.map calculate_data_hash)).length = 0 := by
    rw [hseen2, newHashes_length]
    have hempty : (tds.map calculate_data_hash).toFinset \
        (st.trades.map (·.dataHash) ++
          newHashes (st.trades.map (·.dataHash)) (tds.map calculate_data_hash)).toFinset =
        ∅ := by
      ext a
      simp only [Finset.mem_sdiff, List.toFinset_append, Finset.mem_union,
        Finset.not_mem_empty, iff_false, not_and, not_not]
      intro ha
      right
      rw [newHashes_toFinset]
      rw [Finset.mem_sdiff]
      refine ⟨ha, ?_⟩
      intro hc
      exact hdisj a (List.mem_toFinset.mp ha) (List.mem_toFinset.mp hc)
    rw [hempty]
    simp
  rw [hlen1] at h1
  rw [hlen2] at h2
  exact ⟨_, _, h1, h2⟩

/-- A table with a duplicated row: two distinct fingerprints among three
rows. -/
def wdfC4 : DataFrame :=
  { cols := ["Symbol", "Quantity"]
    rows := [[.str "TCS", .int 5], [.str "TCS", .int 5], [.str "INFY", .int 2]] }

def tdTCS : TradeData :=
  { symbol := "TCS", quantity := some 5, buyValue := some 0, sellValue := some 0,
    realizedPnl := some 0, buyAverage := some 0, sellAverage := some 0,
    tradeType := "", exchange := "", tradeTime := "" }

def tdINFY : TradeData :=
  { symbol := "INFY", quantity := some 2, buyValue := some 0, sellValue := some 0,
    realizedPnl := some 0, buyAverage := some 0, sellAverage := some 0,
    tradeType := "", exchange := "", tradeTime := "" }

set_option maxRecDepth 8000 in
/-- C4 witness: spec scenario B generalized — storing `wdfC4` twice
under two different source tags inserts 2 records then 0. -/
theorem c4_witness :
    ∃ st1 st2, store_trades wdfC4 "zerodha" ⟨[]⟩ = (st1, .ok 2) ∧
      store_trades wdfC4 "gmail" st1 = (st2, .ok 0) := by
  have h := c4_store_twice_inserts_distinct_fingerprints wdfC4 "zerodha" "gmail" ⟨[]⟩
    [tdTCS, tdTCS, tdINFY] (by decide) (by decide)
  rcases h with ⟨st1, st2, h1, h2⟩
  have hd : (([tdTCS, tdTCS, tdINFY].map calculate_data_hash).dedup).length = 2 := by decide
  rw [hd] at h1
  exact ⟨st1, st2, h1, h2⟩

/-! ### Derived-column preservation lemmas (for the metrics claims) -/

theorem addWinLossFlags_rows_length (df : DataFrame) :
    (addWinLossFlags df).rows.length = df.rows.length := by
  unfold addWinLossFlags
  rcases hp : getCol? df "Realized P&L" with _ | pnl
  · rfl
  · have hl : pnl.length = df.rows.length := getCol?_length df _ pnl hp
    dsimp only
    have l1 : (pnl.map winCell).length = df.rows.length := by simp [hl]
    have r1 := setCol_rows_length df "Win" (pnl.map winCell) l1
    have l2 : (pnl.map lossCell).length =
        (setCol df "Win" (pnl.map winCell)).rows.length := by simp [hl, r1]
    have r2 := setCol_rows_length _ "Loss" (pnl.map lossCell) l2
    have l3 : (pnl.map breakEvenCell).length =
        (setCol (setCol df "Win" (pnl.map winCell)) "Loss" (pnl.map lossCell)).rows.length := by
      simp [hl, r1, r2]
    have r3 := setCol_rows_length _ "Break_Even" (pnl.map breakEvenCell) l3
    rw [r3, r2, r1]

theorem addWinLossFlags_getCol_ne (df : DataFrame) (n : String)
    (h1 : n ≠ "Win") (h2 : n ≠ "Loss") (h3 : n ≠ "Break_Even") :
    getCol? (addWinLossFlags df) n = getCol? df n := by
  unfold addWinLossFlags
  rcases hp : getCol? df "Realized P&L" with _ | pnl
  · rfl
  · have hl : pnl.length = df.rows.length := getCol?_length df _ pnl hp
    dsimp only
    have l1 : (pnl.map winCell).length = df.rows.length := by simp [hl]
    have r1 := setCol_rows_length df "Win" (pnl.map winCell) l1
    have l2 : (pnl.map lossCell).length =
        (setCol df "Win" (pnl.map winCell)).rows.length := by simp [hl, r1]
    have r2 := setCol_rows_length _ "Loss" (pnl.map lossCell) l2
    have l3 : (pnl.map breakEvenCell).length =
        (setCol (setCol df "Win" (pnl.map winCell)) "Loss" (pnl.map lossCell)).rows.length := by
      simp [hl, r1, r2]
    rw [setCol_getCol_other _ _ n _ l3 h3, setCol_getCol_other _ _ n _ l2 h2,
      setCol_getCol_other _ _ n _ l1 h1]

theorem addWinLossFlags_flags (df : DataFrame) (pnl : List Cell)
    (hp : getCol? df "Realized P&L" = some pnl) :
    getCol? (addWinLossFlags df) "Win" = some (pnl.map winCell) ∧
    getCol? (addWinLossFlags df) "Loss" = some (pnl.map lossCell) ∧
    getCol? (addWinLossFlags df) "Break_Even" = some (pnl.map breakEvenCell) ∧
    getCol? (addWinLossFlags df) "Realized P&L" = some pnl := by
  have hl : pnl.length = df.rows.length := getCol?_length df _ pnl hp
  have hu : addWinLossFlags df =
      setCol (setCol (setCol df "Win" (pnl.map winCell)) "Loss" (pnl.map lossCell))
        "Break_Even" (pnl.map breakEvenCell) := by
    unfold addWinLossFlags
    rw [hp]
  have l1 : (pnl.map winCell).length = df.rows.length := by simp [hl]
  have r1 := setCol_rows_length df "Win" (pnl.map winCell) l1
  have l2 : (pnl.map lossCell).length =
      (setCol df "Win" (pnl.map winCell)).rows.length := by simp [hl, r1]
  have r2 := setCol_rows_length _ "Loss" (pnl.map lossCell) l2
  have l3 : (pnl.map breakEvenCell).length =
      (setCol (setCol df "Win" (pnl.map winCell)) "Loss" (pnl.map lossCell)).rows.length := by
    simp [hl, r1, r2]
  refine ⟨?_, ?_, ?_, ?_⟩
  · rw [hu, setCol_getCol_other _ _ _ _ l3 (by decide), setCol_getCol_other _ _ _ _ l2 (by decide)]
    exact setCol_getCol_self df _ _ l1
  · rw [hu, setCol_getCol_other _ _ _ _ l3 (by decide)]
    exact setCol_getCol_self _ _ _ l2
  · rw [hu]
    exact setCol_getCol_self _ _ _ l3
  · rw [hu, setCol_getCol_other _ _ _ _ l3 (by decide), setCol_getCol_other _ _ _ _ l2 (by decide),
      setCol_getCol_other _ _ _ _ l1 (by decide)]
    exact hp

theorem addReturnPct_rows_length (df : DataFrame) :
    (addReturnPct df).rows.length = df.rows.length := by
  unfold addReturnPct
  rcases h1 : getCol? df "Buy Value" with _ | bv
  · rfl
  · rcases h2 : getCol? df "Realized P&L" with _ | pnl
    · rfl
    · exact setCol_rows_length df _ _ (by
        simp [List.length_zipWith, getCol?_length df _ bv h1, getCol?_length df _ pnl h2])

theorem addReturnPct_getCol_ne (df : DataFrame) (n : String) (h : n ≠ "Return_Percentage") :
    getCol? (addReturnPct df) n = getCol? df n := by
  unfold addReturnPct
  rcases h1 : getCol? df "Buy Value" with _ | bv
  · rfl
  · rcases h2 : getCol? df "Realized P&L" with _ | pnl
    · rfl
    · exact setCol_getCol_other df _ n _ (by
        simp [List.length_zipWith, getCol?_length df _ bv h1, getCol?_length df _ pnl h2]) h

theorem addPositionMetrics_rows_length (df : DataFrame) :
    (addPositionMetrics df).rows.length = df.rows.length := by
  unfold addPositionMetrics
  rcases h1 : getCol? df "Quantity" with _ | qty
  · rfl
  · have hq : qty.length = df.rows.length := getCol?_length df _ qty h1
    dsimp only
    have l1 : (qty.map positionSizeCell).length = df.rows.length := by simp [hq]
    have r1 := setCol_rows_length df "Position_Size" (qty.map positionSizeCell) l1
    rcases h2 : getCol? (setCol df "Position_Size" (qty.map positionSizeCell)) "Buy Value"
      with _ | bv
    · exact r1
    · have hb := getCol?_length _ _ bv h2
      rw [setCol_rows_length _ _ _ (by simp [List.length_zipWith, hq, r1, hb]), r1]

theorem addPositionMetrics_getCol_ne (df : DataFrame) (n : String)
    (h1 : n ≠ "Position_Size") (h2 : n ≠ "Avg_Entry_Price") :
    getCol? (addPositionMetrics df) n = getCol? df n := by
  unfold addPositionMetrics
  rcases hq : getCol? df "Quantity" with _ | qty
  · rfl
  · have hql : qty.length = df.rows.length := getCol?_length df _ qty hq
    dsimp only
    have l1 : (qty.map positionSizeCell).length = df.rows.length := by simp [hql]
    have r1 := setCol_rows_length df "Position_Size" (qty.map positionSizeCell) l1
    rcases hb : getCol? (setCol df "Position_Size" (qty.map positionSizeCell)) "Buy Value"
      with _ | bv
    · exact setCol_getCol_other df _ n _ l1 h1
    · have hbl := getCol?_length _ _ bv hb
      rw [setCol_getCol_other _ _ n _ (by simp [List.length_zipWith, hql, r1, hbl]) h2]
      exact setCol_getCol_other df _ n _ l1 h1

theorem addDateDerived_lengths (parsed days months hours cells : List Cell)
    (df : DataFrame) (dc : String)
    (hc : cells.length = df.rows.length)
    (h4 : parsed.length = cells.length ∧ days.length = cells.length ∧
      months.length = cells.length ∧ hours.length = cells.length) :
    (setCol (setCol (setCol (setCol df dc parsed) "Day_of_Week" days) "Month" months)
      "Hour" hours).rows.length = df.rows.length ∧
    ∀ n, n ≠ dc → n ≠ "Day_of_Week" → n ≠ "Month" → n ≠ "Hour" →
      getCol? (setCol (setCol (setCol (setCol df dc parsed) "Day_of_Week" days) "Month" months)
        "Hour" hours) n = getCol? df n := by
  have l1 : parsed.length = df.rows.length := by omega
  have r1 := setCol_rows_length df dc parsed l1
  have l2 : days.length = (setCol df dc parsed).rows.length := by omega
  have r2 := setCol_rows_length _ "Day_of_Week" days l2
  have l3 : months.length =
      (setCol (setCol df dc parsed) "Day_of_Week" days).rows.length := by omega
  have r3 := setCol_rows_length _ "Month" months l3
  have l4 : hours.length =
      (setCol (setCol (setCol df dc parsed) "Day_of_Week" days) "Month" months).rows.length := by
    omega
  have r4 := setCol_rows_length _ "Hour" hours l4
  refine ⟨by omega, ?_⟩
  intro n hn1 hn2 hn3 hn4
  rw [setCol_getCol_other _ _ n _ l4 hn4, setCol_getCol_other _ _ n _ l3 hn3,
    setCol_getCol_other _ _ n _ l2 hn2, setCol_getCol_other _ _ n _ l1 hn1]

theorem addDateDerived_rows_length (dtParse : DtParse) (df : DataFrame) :
    (addDateDerived dtParse df).rows.length = df.rows.length := by
  unfold addDateDerived
  rcases h1 : df.cols.filter isDateColName with _ | ⟨dc, rest⟩
  · rfl
  · dsimp only
    rcases h2 : getCol? df dc with _ | cells
    · rfl
    · dsimp only
      rcases h3 : dtParse cells with _ | ⟨⟨parsed, days, months, hours⟩⟩
      · rfl
      · dsimp only
        by_cases h4 : parsed.length = cells.length ∧ days.length = cells.length ∧
            months.length = cells.length ∧ hours.length = cells.length
        · rw [if_pos h4]
          exact (addDateDerived_lengths parsed days months hours cells df dc
            (getCol?_length df _ cells h2) h4).1
        · rw [if_neg h4]

theorem addDateDerived_getCol_ne (dtParse : DtParse) (df : DataFrame) (n : String)
    (hnd : isDateColName n = false)
    (h1 : n ≠ "Day_of_Week") (h2 : n ≠ "Month") (h3 : n ≠ "Hour") :
    getCol? (addDateDerived dtParse df) n = getCol? df n := by
  unfold addDateDerived
  rcases hf : df.cols.filter isDateColName with _ | ⟨dc, rest⟩
  · rfl
  · dsimp only
    have hdc : isDateColName dc = true := by
      have : dc ∈ df.cols.filter isDateColName := by
        rw [hf]; exact List.mem_cons_self _ _
      exact List.of_mem_filter this
    have hndc : n ≠ dc := by
      intro he
      rw [he, hdc] at hnd
      cases hnd
    rcases hg : getCol? df dc with _ | cells
    · rfl
    · dsimp only
      rcases hp : dtParse cells with _ | ⟨⟨parsed, days, months, hours⟩⟩
      · rfl
      · dsimp only
        by_cases h4 : parsed.length = cells.length ∧ days.length = cells.length ∧
            months.length = cells.length ∧ hours.length = cells.length
        · rw [if_pos h4]
          exact (addDateDerived_lengths parsed days months hours cells df dc
            (getCol?_length df _ cells hg) h4).2 n hndc h1 h2 h3
        · rw [if_neg h4]

theorem calculate_derived_metrics_rows_length (dtParse : DtParse) (df : DataFrame) :
    (calculate_derived_metrics dtParse df).rows.length = df.rows.length := by
  unfold calculate_derived_metrics
  rw [addDateDerived_rows_length, addPositionMetrics_rows_length, addReturnPct_rows_length,
    addWinLossFlags_rows_length]

theorem calcDerived_flag_cols (dtParse : DtParse) (df : DataFrame) (pnl : List Cell)
    (hp : getCol? df "Realized P&L" = some pnl) :
    getCol? (calculate_derived_metrics dtParse df) "Realized P&L" = some pnl ∧
    getCol? (calculate_derived_metrics dtParse df) "Win" = some (pnl.map winCell) ∧
    getCol? (calculate_derived_metrics dtParse df) "Loss" = some (pnl.map lossCell) ∧
    getCol? (calculate_derived_metrics dtParse df) "Break_Even" =
      some (pnl.map breakEvenCell) := by
  rcases addWinLossFlags_flags df pnl hp with ⟨hw, hl, hb, hr⟩
  unfold calculate_derived_metrics
  refine ⟨?_, ?_, ?_, ?_⟩ <;>
    rw [addDateDerived_getCol_ne _ _ _ (by decide) (by decide) (by decide) (by decide),
      addPositionMetrics_getCol_ne _ _ (by decide) (by decide),
      addReturnPct_getCol_ne _ _ (by decide)] <;>
    assumption

/-! ### Counting lemmas for the metrics engine -/

/-- The rows with `Realized P&L == 0` (the Break_Even selection). -/
def zeroVals (l : List (Option ℚ)) : List ℚ :=
  l.filterMap fun o => o.bind fun q => if q = 0 then some q else none

theorem nanSum_cons_some (x : ℚ) (l : List (Option ℚ)) :
    nanSum (some x :: l) = x + nanSum l := by
  simp [nanSum]

theorem nanSum_cons_none (l : List (Option ℚ)) : nanSum (none :: l) = nanSum l := by
  simp [nanSum]

theorem winSum_eq (pnl : List Cell) :
    nanSum ((pnl.map winCell).map cellNum) =
      ((positiveVals (pnl.map cellNum)).length : ℚ) := by
  induction pnl with
  | nil => simp [nanSum, positiveVals]
  | cons c t ih =>
    simp only [List.map_cons]
    rcases hc : cellNum c with _ | q
    · rw [show cellNum (winCell c) = some 0 by rw [winCell, hc]; simp [cellNum]]
      rw [nanSum_cons_some, ih]
      simp [positiveVals, hc]
    · by_cases hq : 0 < q
      · rw [show cellNum (winCell c) = some 1 by rw [winCell, hc]; simp [cellNum, hq]]
        rw [nanSum_cons_some, ih]
        simp [positiveVals, hc, hq]
        ring
      · rw [show cellNum (winCell c) = some 0 by rw [winCell, hc]; simp [cellNum, hq]]
        rw [nanSum_cons_some, ih]
        simp [positiveVals, hc, hq]

theorem lossSum_eq (pnl : List Cell) :
    nanSum ((pnl.map lossCell).map cellNum) =
      ((negativeVals (pnl.map cellNum)).length : ℚ) := by
  induction pnl with
  | nil => simp [nanSum, negativeVals]
  | cons c t ih =>
    simp only [List.map_cons]
    rcases hc : cellNum c with _ | q
    · rw [show cellNum (lossCell c) = some 0 by rw [lossCell, hc]; simp [cellNum]]
      rw [nanSum_cons_some, ih]
      simp [negativeVals, hc]
    · by_cases hq : q < 0
      · rw [show cellNum (lossCell c) = some 1 by rw [lossCell, hc]; simp [cellNum, hq]]
        rw [nanSum_cons_some, ih]
        simp [negativeVals, hc, hq]
        ring
      · rw [show cellNum (lossCell c) = some 0 by rw [lossCell, hc]; simp [cellNum, hq]]
        rw [nanSum_cons_some, ih]
        simp [negativeVals, hc, hq]

theorem beSum_eq (pnl : List Cell) :
    nanSum ((pnl.map breakEvenCell).map cellNum) =
      ((zeroVals (pnl.map cellNum)).length : ℚ) := by
  induction pnl with
  | nil => simp [nanSum, zeroVals]
  | cons c t ih =>
    simp only [List.map_cons]
    rcases hc : cellNum c with _ | q
    · rw [show cellNum (breakEvenCell c) = some 0 by rw [breakEvenCell, hc]; simp [cellNum]]
      rw [nanSum_cons_some, ih]
      simp [zeroVals, hc]
    · by_cases hq : q = 0
      · rw [show cellNum (breakEvenCell c) = some 1 by rw [breakEvenCell, hc]; simp [cellNum, hq]]
        rw [nanSum_cons_some, ih]
        simp [zeroVals, hc, hq]
        ring
      · rw [show cellNum (breakEvenCell c) = some 0 by rw [breakEvenCell, hc]; simp [cellNum, hq]]
        rw [nanSum_cons_some, ih]
        simp [zeroVals, hc, hq]

theorem counts_total (pv : List (Option ℚ)) (hnn : ∀ o ∈ pv, o.isSome) :
    (positiveVals pv).length + (negativeVals pv).length + (zeroVals pv).length = pv.length := by
  induction pv with
  | nil => simp [positiveVals, negativeVals, zeroVals]
  | cons o t ih =>
    have ho := hnn o (List.mem_cons_self _ _)
    rcases o with _ | q
    · simp at ho
    · have iht := ih fun x hx => hnn x (List.mem_cons_of_mem _ hx)
      rcases lt_trichotomy q 0 with hq | hq | hq
      · have h1 : ¬ 0 < q := by linarith
        simp only [positiveVals, negativeVals, zeroVals, List.filterMap_cons] at *
        simp [hq, h1, (by linarith : q ≠ 0)] at *
        omega
      · subst hq
        simp only [positiveVals, negativeVals, zeroVals, List.filterMap_cons] at *
        simp at *
        omega
      · have h1 : ¬ q < 0 := by linarith
        simp only [positiveVals, negativeVals, zeroVals, List.filterMap_cons] at *
        simp [hq, h1, (by linarith : q ≠ 0)] at *
        omega

theorem pyInt_natCast (n : ℕ) : pyInt (n : ℚ) = n := by
  unfold pyInt
  rw [if_neg (by simp), Rat.floor_def']
  simp

theorem contains_of_mem_str {l : List String} {a : String} (h : a ∈ l) :
    l.contains a = true := by
  induction l with
  | nil => cases h
  | cons b t ih =>
    rcases List.mem_cons.mp h with rfl | h'
    · simp [List.contains_cons]
    · simp only [List.contains_cons, Bool.or_eq_true, beq_iff_eq]
      simp [ih h']
      exact Or.inr h'

theorem compute_calcDerived_fields (dtParse : DtParse) (df : DataFrame) (pnl : List Cell)
    (hp : getCol? df "Realized P&L" = some pnl) :
    ∃ m, calculate_comprehensive_metrics (calculate_derived_metrics dtParse df) = .ok m ∧
      m.totalTrades = df.rows.length ∧
      m.totalPnl = round2 (nanSum (pnl.map cellNum)) ∧
      m.winningTrades = ((positiveVals (pnl.map cellNum)).length : ℤ) ∧
      m.losingTrades = ((negativeVals (pnl.map cellNum)).length : ℤ) ∧
      m.breakEvenTrades = ((zeroVals (pnl.map cellNum)).length : ℤ) ∧
      m.averageWin = mvRound2 (gatedMean ((positiveVals (pnl.map cellNum)).length : ℚ)
        (positiveVals (pnl.map cellNum))) ∧
      m.averageLoss = mvRound2 (gatedMean ((negativeVals (pnl.map cellNum)).length : ℚ)
        (negativeVals (pnl.map cellNum))) ∧
      m.riskReward = riskRewardOf
        (gatedMean ((positiveVals (pnl.map cellNum)).length : ℚ)
          (positiveVals (pnl.map cellNum)))
        (gatedMean ((negativeVals (pnl.map cellNum)).length : ℚ)
          (negativeVals (pnl.map cellNum))) ∧
      m.profitFactor = (if 0 < |(negativeVals (pnl.map cellNum)).sum| then
        MetricVal.num (round2 ((positiveVals (pnl.map cellNum)).sum /
          |(negativeVals (pnl.map cellNum)).sum|))
        else .infinite) ∧
      m.maxDrawdown = reportMin (List.zipWith subOpt (cumsum (pnl.map cellNum))
        (expandingMax (cumsum (pnl.map cellNum)))) ∧
      m.bestTrade = reportMax (pnl.map cellNum) ∧
      m.worstTrade = reportMin (pnl.map cellNum) := by
  obtain ⟨F1, F2, F3, F4⟩ := calcDerived_flag_cols dtParse df pnl hp
  have F5 := calculate_derived_metrics_rows_length dtParse df
  have hw : colSumQ (calculate_derived_metrics dtParse df) "Win" =
      ((positiveVals (pnl.map cellNum)).length : ℚ) := by
    unfold colSumQ
    rw [F2]
    exact winSum_eq pnl
  have hl : colSumQ (calculate_derived_metrics dtParse df) "Loss" =
      ((negativeVals (pnl.map cellNum)).length : ℚ) := by
    unfold colSumQ
    rw [F3]
    exact lossSum_eq pnl
  have hb : colSumQ (calculate_derived_metrics dtParse df) "Break_Even" =
      ((zeroVals (pnl.map cellNum)).length : ℚ) := by
    unfold colSumQ
    rw [F4]
    exact beSum_eq pnl
  have hmem : (calculate_derived_metrics dtParse df).cols.contains "Realized P&L" = true := by
    rcases getCol?_imp_colIdx? _ _ _ F1 with ⟨i, hi⟩
    have h2 := (colIdx?_spec _ _ _ hi).2
    apply contains_of_mem_str
    have hlen := (colIdx?_spec _ _ _ hi).1
    have he := List.getElem?_eq_getElem hlen
    rw [he, Option.some.injEq] at h2
    rw [← h2]
    exact List.getElem_mem hlen
  unfold calculate_comprehensive_metrics
  rw [if_neg (fun hcon => hcon hmem)]
  refine ⟨_, rfl, ?_, ?_, ?_, ?_, ?_, ?_, ?_, ?_, ?_, ?_, ?_, ?_⟩ <;> dsimp only
  · exact F5
  · rw [F1, Option.getD_some]
  · rw [hw, pyInt_natCast]
  · rw [hl, pyInt_natCast]
  · rw [hb, pyInt_natCast]
  · rw [F1, Option.getD_some, hw]
  · rw [F1, Option.getD_some, hl]
  · rw [F1, Option.getD_some, hw, hl]
  · rw [F1, Option.getD_some]
  · rw [F1, Option.getD_some]
  · rw [F1, Option.getD_some]
  · rw [F1, Option.getD_some]

/-! ### All-zero column lemmas -/

theorem round2_zero : round2 0 = 0 := by
  unfold round2
  simp

theorem positiveVals_zeros (pv : List (Option ℚ)) (h : ∀ o ∈ pv, o = some 0) :
    positiveVals pv = [] := by
  induction pv with
  | nil => rfl
  | cons o t ih =>
    have ho := h o (List.mem_cons_self _ _)
    subst ho
    have ht := ih fun x hx => h x (List.mem_cons_of_mem _ hx)
    unfold positiveVals at ht ⊢
    rw [List.filterMap_cons]
    exact ht

theorem negativeVals_zeros (pv : List (Option ℚ)) (h : ∀ o ∈ pv, o = some 0) :
    negativeVals pv = [] := by
  induction pv with
  | nil => rfl
  | cons o t ih =>
    have ho := h o (List.mem_cons_self _ _)
    subst ho
    have ht := ih fun x hx => h x (List.mem_cons_of_mem _ hx)
    unfold negativeVals at ht ⊢
    rw [List.filterMap_cons]
    exact ht

theorem cumsumGo_zeros (pv : List (Option ℚ)) (h : ∀ o ∈ pv, o = some 0) :
    cumsumGo 0 pv = pv := by
  induction pv with
  | nil => rfl
  | cons o t ih =>
    have ho := h o (List.mem_cons_self _ _)
    subst ho
    show some (0 + 0) :: cumsumGo (0 + 0) t = some 0 :: t
    rw [add_zero]
    rw [ih fun x hx => h x (List.mem_cons_of_mem _ hx)]

theorem expandingMaxGo_zeros (pv : List (Option ℚ)) (h : ∀ o ∈ pv, o = some 0) :
    ∀ b : Option ℚ, b = none ∨ b = some 0 → expandingMaxGo b pv = pv := by
  induction pv with
  | nil => intro b _; rfl
  | cons o t ih =>
    intro b hb
    have ho := h o (List.mem_cons_self _ _)
    subst ho
    have hmax : maxOpt b (some 0) = some 0 := by
      rcases hb with rfl | rfl
      · rfl
      · show some (max 0 0) = some 0
        rw [max_self]
    show maxOpt b (some 0) :: expandingMaxGo (maxOpt b (some 0)) t = some 0 :: t
    rw [hmax, ih (fun x hx => h x (List.mem_cons_of_mem _ hx)) (some 0) (Or.inr rfl)]

theorem zipWith_subOpt_zeros (pv : List (Option ℚ)) (h : ∀ o ∈ pv, o = some 0) :
    List.zipWith subOpt pv pv = pv := by
  induction pv with
  | nil => rfl
  | cons o t ih =>
    have ho := h o (List.mem_cons_self _ _)
    subst ho
    rw [List.zipWith_cons_cons]
    show some (0 - 0) :: List.zipWith subOpt t t = some 0 :: t
    rw [sub_zero, ih fun x hx => h x (List.mem_cons_of_mem _ hx)]

theorem foldl_min_zeros (l : List ℚ) (h : ∀ x ∈ l, x = 0) : l.foldl min 0 = 0 := by
  induction l with
  | nil => rfl
  | cons a t ih =>
    have ha := h a (List.mem_cons_self _ _)
    subst ha
    rw [List.foldl_cons, min_self]
    exact ih fun x hx => h x (List.mem_cons_of_mem _ hx)

theorem foldl_max_zeros (l : List ℚ) (h : ∀ x ∈ l, x = 0) : l.foldl max 0 = 0 := by
  induction l with
  | nil => rfl
  | cons a t ih =>
    have ha := h a (List.mem_cons_self _ _)
    subst ha
    rw [List.foldl_cons, max_self]
    exact ih fun x hx => h x (List.mem_cons_of_mem _ hx)

theorem filterMap_id_zeros (pv : List (Option ℚ)) (h : ∀ o ∈ pv, o = some 0) :
    pv.filterMap id = List.replicate pv.length 0 := by
  induction pv with
  | nil => rfl
  | cons o t ih =>
    have ho := h o (List.mem_cons_self _ _)
    subst ho
    simp only [List.filterMap_cons, id, List.length_cons, List.replicate_succ]
    rw [ih fun x hx => h x (List.mem_cons_of_mem _ hx)]

theorem reportMin_zeros (pv : List (Option ℚ)) (h : ∀ o ∈ pv, o = some 0)
    (hne : pv ≠ []) : reportMin pv = .num 0 := by
  unfold reportMin
  rw [filterMap_id_zeros pv h]
  rcases pv with _ | ⟨o, t⟩
  · cases hne rfl
  · rw [List.length_cons, List.replicate_succ]
    show (match (0 :: List.replicate t.length 0 : List ℚ).min? with
      | some m => MetricVal.num (round2 m)
      | none => MetricVal.nan) = MetricVal.num 0
    have hm : (0 :: List.replicate t.length 0 : List ℚ).min? =
        some ((List.replicate t.length 0).foldl min 0) := rfl
    rw [hm, foldl_min_zeros _ (by intro x hx; exact List.eq_of_mem_replicate hx)]
    show MetricVal.num (round2 0) = MetricVal.num 0
    rw [round2_zero]

theorem reportMax_zeros (pv : List (Option ℚ)) (h : ∀ o ∈ pv, o = some 0)
    (hne : pv ≠ []) : reportMax pv = .num 0 := by
  unfold reportMax
  rw [filterMap_id_zeros pv h]
  rcases pv with _ | ⟨o, t⟩
  · cases hne rfl
  · rw [List.length_cons, List.replicate_succ]
    show (match (0 :: List.replicate t.length 0 : List ℚ).max? with
      | some m => MetricVal.num (round2 m)
      | none => MetricVal.nan) = MetricVal.num 0
    have hm : (0 :: List.replicate t.length 0 : List ℚ).max? =
        some ((List.replicate t.length 0).foldl max 0) := rfl
    rw [hm, foldl_max_zeros _ (by intro x hx; exact List.eq_of_mem_replicate hx)]
    show MetricVal.num (round2 0) = MetricVal.num 0
    rw [round2_zero]

/-! ### Claim C3 -/

/-- C3 counterexample: tables accepted by the metrics engine whose
category counts do not sum to the row count — a table without the
Win/Loss/Break_Even flag columns (counts are 0), and a pipeline-shaped
table whose single Realized P&L value is null (the row falls in no
category). -/
theorem c3_counts_can_miss_total :
    (∃ m, calculate_comprehensive_metrics ⟨["Realized P&L"], [[.num 5]]⟩ = .ok m ∧
      m.winningTrades + m.losingTrades + m.breakEvenTrades = 0 ∧ m.totalTrades = 1) ∧
    (∃ m, calculate_comprehensive_metrics
        ⟨["Realized P&L", "Win", "Loss", "Break_Even"],
          [[.null, .bool false, .bool false, .bool false]]⟩ = .ok m ∧
      m.winningTrades + m.losingTrades + m.breakEvenTrades = 0 ∧ m.totalTrades = 1) := by
  constructor <;> exact ⟨_, rfl, by decide, by decide⟩

/-- C3 (amended): for tables whose Win/Loss/Break_Even flags are the
derived ones and whose Realized P&L values are all non-null,
Winning + Losing + Break_Even equals Total_Trades, and Total_P&L is the
2-decimal rounding of the sum of the Realized P&L column. -/
theorem c3_metrics_totals_on_derived (dtParse : DtParse) (df : DataFrame) (pnl : List Cell)
    (m : Metrics) (hp : getCol? df "Realized P&L" = some pnl)
    (hnn : ∀ c ∈ pnl, (cellNum c).isSome)
    (hm : calculate_comprehensive_metrics (calculate_derived_metrics dtParse df) = .ok m) :
    m.winningTrades + m.losingTrades + m.breakEvenTrades = (m.totalTrades : ℤ) ∧
    m.totalPnl = round2 (nanSum (pnl.map cellNum)) := by
  obtain ⟨m', hm', f1, f2, f3, f4, f5, -⟩ := compute_calcDerived_fields dtParse df pnl hp
  rw [hm'] at hm
  injection hm with hmm
  subst hmm
  refine ⟨?_, f2⟩
  rw [f3, f4, f5, f1]
  have hnn' : ∀ o ∈ pnl.map cellNum, o.isSome := by
    intro o ho
    rcases List.mem_map.mp ho with ⟨c, hcm, rfl⟩
    exact hnn c hcm
  have hc := counts_total (pnl.map cellNum) hnn'
  rw [List.length_map] at hc
  have hlen : pnl.length = df.rows.length := getCol?_length df _ pnl hp
  rw [← hlen]
  exact_mod_cast hc

def wdfC3 : DataFrame := ⟨["Realized P&L"], [[.num 5], [.num (-3)], [.num 0]]⟩

def mC3 : Metrics :=
  { totalPnl := 2, totalTrades := 3, winningTrades := 1, losingTrades := 1,
    breakEvenTrades := 1, winRate := 3333/100, lossRate := 3333/100,
    averageWin := .num 5, averageLoss := .num (-3), riskReward := .num (167/100),
    profitFactor := .num (167/100), maxDrawdown := .num (-3), maxConsecWins := 1,
    maxConsecLosses := 1, bestTrade := .num 5, worstTrade := .num (-3) }

/-- C3 witness: on a concrete derived table with one win, one loss and
one break-even row, 1 + 1 + 1 = 3 and the reported total equals the
rounded column sum. -/
theorem c3_witness :
    mC3.winningTrades + mC3.losingTrades + mC3.breakEvenTrades = (mC3.totalTrades : ℤ) ∧
    mC3.totalPnl = round2 (nanSum ([Cell.num 5, Cell.num (-3), Cell.num 0].map cellNum)) :=
  c3_metrics_totals_on_derived dtNone wdfC3 [.num 5, .num (-3), .num 0] mC3
    (by decide) (by decide) (by decide)

/-! ### Claim C7 -/

/-- C7 counterexample: the averages are gated by the Win/Loss flag
columns and rounded — without a Win column, Average_Win is 0 even though
a positive row exists; and with three positive rows 0.1, 0.1, 0.15 the
reported Average_Win is 0.12 (= 3/25), not the exact mean 7/60. -/
theorem c7_average_win_gated_and_rounded :
    (∃ m, calculate_comprehensive_metrics ⟨["Realized P&L"], [[.num 7]]⟩ = .ok m ∧
      m.averageWin = .num 0 ∧ positiveVals ([Cell.num 7].map cellNum) = [7]) ∧
    (∃ m, calculate_comprehensive_metrics (calculate_derived_metrics dtNone
        ⟨["Realized P&L"], [[.num (1/10)], [.num (1/10)], [.num (3/20)]]⟩) = .ok m ∧
      m.averageWin = .num (3/25) ∧
      (positiveVals ([Cell.num (1/10), Cell.num (1/10), Cell.num (3/20)].map cellNum)).sum /
        ((positiveVals ([Cell.num (1/10), Cell.num (1/10),
          Cell.num (3/20)].map cellNum)).length : ℚ) = 7/60 ∧
      (3/25 : ℚ) ≠ 7/60) := by
  constructor
  · exact ⟨_, rfl, by decide, by decide⟩
  · exact ⟨_, rfl, by decide, by decide, by decide⟩

/-- C7 (amended): for tables whose Win/Loss flags are the derived ones,
Average_Win is the 2-decimal rounding of the mean of the positive
Realized P&L rows (0 if there are none), and Average_Loss likewise for
the negative rows. -/
theorem c7_average_win_loss_on_derived (dtParse : DtParse) (df : DataFrame) (pnl : List Cell)
    (m : Metrics) (hp : getCol? df "Realized P&L" = some pnl)
    (hm : calculate_comprehensive_metrics (calculate_derived_metrics dtParse df) = .ok m) :
    m.averageWin = (if (positiveVals (pnl.map cellNum)).isEmpty then MetricVal.num 0
      else .num (round2 ((positiveVals (pnl.map cellNum)).sum /
        ((positiveVals (pnl.map cellNum)).length : ℚ)))) ∧
    m.averageLoss = (if (negativeVals (pnl.map cellNum)).isEmpty then MetricVal.num 0
      else .num (round2 ((negativeVals (pnl.map cellNum)).sum /
        ((negativeVals (pnl.map cellNum)).length : ℚ)))) := by
  obtain ⟨m', hm', f1, f2, f3, f4, f5, f6, f7, -⟩ := compute_calcDerived_fields dtParse df pnl hp
  rw [hm'] at hm
  injection hm with hmm
  subst hmm
  constructor
  · rw [f6]
    by_cases h0 : (positiveVals (pnl.map cellNum)).isEmpty
    · rw [if_pos h0]
      have he : positiveVals (pnl.map cellNum) = [] := List.isEmpty_iff.mp h0
      rw [he]
      have hg : gatedMean ((([] : List ℚ)).length : ℚ) ([] : List ℚ) = .num 0 := by
        unfold gatedMean
        rw [if_neg (by simp)]
      rw [hg]
      show MetricVal.num (round2 0) = MetricVal.num 0
      rw [round2_zero]
    · rw [if_neg h0]
      have hne : positiveVals (pnl.map cellNum) ≠ [] := by
        simpa [List.isEmpty_iff] using h0
      have hlp : 0 < (positiveVals (pnl.map cellNum)).length := List.length_pos.mpr hne
      unfold gatedMean
      rw [if_pos (by exact_mod_cast hlp), if_neg (fun hh => hne (List.isEmpty_iff.mp hh))]
      rfl
  · rw [f7]
    by_cases h0 : (negativeVals (pnl.map cellNum)).isEmpty
    · rw [if_pos h0]
      have he : negativeVals (pnl.map cellNum) = [] := List.isEmpty_iff.mp h0
      rw [he]
      have hg : gatedMean ((([] : List ℚ)).length : ℚ) ([] : List ℚ) = .num 0 := by
        unfold gatedMean
        rw [if_neg (by simp)]
      rw [hg]
      show MetricVal.num (round2 0) = MetricVal.num 0
      rw [round2_zero]
    · rw [if_neg h0]
      have hne : negativeVals (pnl.map cellNum) ≠ [] := by
        simpa [List.isEmpty_iff] using h0
      have hlp : 0 < (negativeVals (pnl.map cellNum)).length := List.length_pos.mpr hne
      unfold gatedMean
      rw [if_pos (by exact_mod_cast hlp), if_neg (fun hh => hne (List.isEmpty_iff.mp hh))]
      rfl

def wdfC7 : DataFrame := ⟨["Realized P&L"], [[.num 4], [.num (-2)]]⟩

def mC7 : Metrics :=
  { totalPnl := 2, totalTrades := 2, winningTrades := 1, losingTrades := 1,
    breakEvenTrades := 0, winRate := 50, lossRate := 50,
    averageWin := .num 4, averageLoss := .num (-2), riskReward := .num 2,
    profitFactor := .num 2, maxDrawdown := .num (-2), maxConsecWins := 1,
    maxConsecLosses := 1, bestTrade := .num 4, worstTrade := .num (-2) }

/-- C7 witness: a concrete derived table with one positive and one
negative row — the averages are the (rounded) means of those rows. -/
theorem c7_witness :
    mC7.averageWin = (if (positiveVals ([Cell.num 4, Cell.num (-2)].map cellNum)).isEmpty
      then MetricVal.num 0
      else .num (round2 ((positiveVals ([Cell.num 4, Cell.num (-2)].map cellNum)).sum /
        ((positiveVals ([Cell.num 4, Cell.num (-2)].map cellNum)).length : ℚ)))) ∧
    mC7.averageLoss = (if (negativeVals ([Cell.num 4, Cell.num (-2)].map cellNum)).isEmpty
      then MetricVal.num 0
      else .num (round2 ((negativeVals ([Cell.num 4, Cell.num (-2)].map cellNum)).sum /
        ((negativeVals ([Cell.num 4, Cell.num (-2)].map cellNum)).length : ℚ)))) :=
  c7_average_win_loss_on_derived dtNone wdfC7 [.num 4, .num (-2)] mC7 (by decide) (by decide)

/-! ### Claim C6 -/

/-- C6 counterexample: on the zero-row table the engine does not raise,
but Max_Drawdown and Best/Worst_Single_Trade are NaN — not the sentinel
0 or "Infinite" the claim promises for every affected metric. -/
theorem c6_empty_table_yields_nan :
    ∃ m, calculate_comprehensive_metrics ⟨["Realized P&L"], []⟩ = .ok m ∧
      m.maxDrawdown = .nan ∧ m.bestTrade = .nan ∧ m.worstTrade = .nan ∧
      m.bestTrade ≠ .num 0 ∧ m.bestTrade ≠ .infinite := by
  exact ⟨_, rfl, by decide, by decide, by decide, by decide, by decide⟩

/-- C6 (amended): the metrics engine never raises when a Realized P&L
column is present; the zero-row table gets 0 and "Infinite" sentinels
except that Max_Drawdown and Best/Worst_Single_Trade are NaN; an
all-zero-P&L derived table gets exactly the 0 / "Infinite" sentinels. -/
theorem c6_degenerate_inputs_never_raise :
    (∀ df : DataFrame, "Realized P&L" ∈ df.cols →
      ∃ m, calculate_comprehensive_metrics df = .ok m) ∧
    (calculate_comprehensive_metrics ⟨["Realized P&L"], []⟩ = .ok
      { totalPnl := 0, totalTrades := 0, winningTrades := 0, losingTrades := 0,
        breakEvenTrades := 0, winRate := 0, lossRate := 0, averageWin := .num 0,
        averageLoss := .num 0, riskReward := .infinite, profitFactor := .infinite,
        maxDrawdown := .nan, maxConsecWins := 0, maxConsecLosses := 0,
        bestTrade := .nan, worstTrade := .nan }) ∧
    (∀ (dtParse : DtParse) (df : DataFrame) (pnl : List Cell) (m : Metrics),
      getCol? df "Realized P&L" = some pnl → pnl ≠ [] →
      (∀ c ∈ pnl, cellNum c = some 0) →
      calculate_comprehensive_metrics (calculate_derived_metrics dtParse df) = .ok m →
      m.averageWin = .num 0 ∧ m.averageLoss = .num 0 ∧ m.riskReward = .infinite ∧
        m.profitFactor = .infinite ∧ m.maxDrawdown = .num 0 ∧ m.bestTrade = .num 0 ∧
        m.worstTrade = .num 0) := by
  refine ⟨?_, by decide, ?_⟩
  · intro df hmem
    unfold calculate_comprehensive_metrics
    rw [if_neg (fun hcon => hcon (contains_of_mem_str hmem))]
    exact ⟨_, rfl⟩
  · intro dtParse df pnl m hp hne hz hm
    obtain ⟨m', hm', f1, f2, f3, f4, f5, f6, f7, f8, f9, f10, f11, f12⟩ :=
      compute_calcDerived_fields dtParse df pnl hp
    rw [hm'] at hm
    injection hm with hmm
    subst hmm
    have hz' : ∀ o ∈ pnl.map cellNum, o = some 0 := by
      intro o ho
      rcases List.mem_map.mp ho with ⟨c, hcm, rfl⟩
      exact hz c hcm
    have hpos := positiveVals_zeros _ hz'
    have hneg := negativeVals_zeros _ hz'
    have hpvne : pnl.map cellNum ≠ [] := by
      intro hh
      exact hne (List.map_eq_nil_iff.mp hh)
    have hg0 : gatedMean ((([] : List ℚ)).length : ℚ) ([] : List ℚ) = .num 0 := by
      unfold gatedMean
      rw [if_neg (by simp)]
    have hAW : mvRound2 (gatedMean ((positiveVals (pnl.map cellNum)).length : ℚ)
        (positiveVals (pnl.map cellNum))) = .num 0 := by
      rw [hpos, hg0]
      show MetricVal.num (round2 0) = MetricVal.num 0
      rw [round2_zero]
    have hAL : mvRound2 (gatedMean ((negativeVals (pnl.map cellNum)).length : ℚ)
        (negativeVals (pnl.map cellNum))) = .num 0 := by
      rw [hneg, hg0]
      show MetricVal.num (round2 0) = MetricVal.num 0
      rw [round2_zero]
    have hcs : cumsum (pnl.map cellNum) = pnl.map cellNum := cumsumGo_zeros _ hz'
    refine ⟨by rw [f6]; exact hAW, by rw [f7]; exact hAL, ?_, ?_, ?_, ?_, ?_⟩
    · rw [f8, hpos, hneg, hg0]
      decide
    · rw [f9, hneg]
      rw [if_neg (by simp)]
    · have hem : expandingMax (pnl.map cellNum) = pnl.map cellNum :=
        expandingMaxGo_zeros _ hz' none (Or.inl rfl)
      rw [f10, hcs, hem, zipWith_subOpt_zeros _ hz']
      exact reportMin_zeros _ hz' hpvne
    · rw [f11]
      exact reportMax_zeros _ hz' hpvne
    · rw [f12]
      exact reportMin_zeros _ hz' hpvne

def wdfC6 : DataFrame := ⟨["Realized P&L"], [[.num 0], [.num 0]]⟩

def mC6 : Metrics :=
  { totalPnl := 0, totalTrades := 2, winningTrades := 0, losingTrades := 0,
    breakEvenTrades := 2, winRate := 0, lossRate := 0, averageWin := .num 0,
    averageLoss := .num 0, riskReward := .infinite, profitFactor := .infinite,
    maxDrawdown := .num 0, maxConsecWins := 0, maxConsecLosses := 0,
    bestTrade := .num 0, worstTrade := .num 0 }

/-- C6 witness: a concrete all-zero-P&L derived table gets the 0 and
"Infinite" sentinels everywhere. -/
theorem c6_witness :
    mC6.averageWin = .num 0 ∧ mC6.averageLoss = .num 0 ∧ mC6.riskReward = .infinite ∧
      mC6.profitFactor = .infinite ∧ mC6.maxDrawdown = .num 0 ∧ mC6.bestTrade = .num 0 ∧
      mC6.worstTrade = .num 0 :=
  c6_degenerate_inputs_never_raise.2.2 dtNone wdfC6 [.num 0, .num 0] mC6
    (by decide) (by decide) (by decide) (by decide)
